import Mathlib

/-!
Verification of the schedule evaluation engine and notification throttle
tracker of `power_control.py` (informatica-na-presales-ops/power-control).

Python strings are modelled as `List Char` (`PyStr`).  Python's runtime is
CPython 3.11 with the C-accelerated `_datetime` module; the `fromisoformat`
parsers below are transcriptions of the C implementation
(`Modules/_datetimemodule.c`: `parse_digits`, `parse_hh_mm_ss_ff`,
`parse_isoformat_time`, `parse_isoformat_date`), which reads through a
NUL-terminated buffer.  Reading at or past the end of the string is
modelled by `charAt`, which returns NUL beyond the end.

Unicode-only behaviours (non-ASCII whitespace and digits accepted by
Python's `int` and `str.strip`, full-Unicode `str.lower`) are modelled in
their ASCII restriction; no instance data in any theorem below leaves
ASCII.
-/

/-- Python `str`, modelled as its sequence of characters. -/
abbrev PyStr := List Char

/-- NUL, the terminator byte the CPython parsers stop on. -/
def nulChar : Char := Char.ofNat 0

/-- Read the character at index `i` of a NUL-terminated buffer: positions at
or past the end of the string read as NUL. -/
def charAt (s : PyStr) (i : Nat) : Char := s.getD i nulChar

/-- ASCII digit test, as in CPython's `parse_digits`
(`(unsigned)(c - ASCII zero) > 9`). -/
def isPyDigit (c : Char) : Bool := 48 ≤ c.toNat && c.toNat ≤ 57

/-- Numeric value of an ASCII digit character. -/
def digitVal (c : Char) : Nat := c.toNat - 48

/-- ASCII whitespace, the ASCII restriction of the set Python's `int` and
`str.strip` ignore at each end. -/
def isPyWs (c : Char) : Bool :=
  c = ' ' || c = Char.ofNat 9 || c = Char.ofNat 10 || c = Char.ofNat 13 ||
  c = Char.ofNat 11 || c = Char.ofNat 12

/-- Python `str.strip()` (ASCII restriction): drop whitespace at both ends. -/
def pyStrip (s : PyStr) : PyStr :=
  ((s.dropWhile isPyWs).reverse.dropWhile isPyWs).reverse

/-- Python `str.lower()` (ASCII restriction). -/
def pyLower (s : PyStr) : PyStr :=
  s.map fun c => if 65 ≤ c.toNat && c.toNat ≤ 90 then Char.ofNat (c.toNat + 32) else c

/-- Python `str.split(sep)` for a one-character separator: split at every
occurrence, keeping empty fields; the empty string gives one empty field. -/
def pySplitOn (sep : Char) : PyStr → List PyStr
  | [] => [[]]
  | c :: rest =>
    if c = sep then [] :: pySplitOn sep rest
    else
      match pySplitOn sep rest with
      | g :: gs => (c :: g) :: gs
      | [] => [[c]]

/-- Digit run with single underscores between digit groups, the shape
accepted by Python's `int` after sign and whitespace handling (ASCII
digits). -/
def pyDigitsUnderscore (acc : Nat) : List Char → Option Nat
  | [] => some acc
  | c :: r =>
    if c = '_' then
      match r with
      | c2 :: r2 =>
        if isPyDigit c2 then pyDigitsUnderscore (acc * 10 + digitVal c2) r2 else none
      | [] => none
    else if isPyDigit c then pyDigitsUnderscore (acc * 10 + digitVal c) r else none

/-- Nonempty digit-and-underscore literal: first character must be a digit. -/
def pyDigitGroup : List Char → Option Nat
  | [] => none
  | c :: r => if isPyDigit c then pyDigitsUnderscore (digitVal c) r else none

/-- Python `int(str)`: strip whitespace, optional sign, digits with single
underscores between digits (ASCII restriction). -/
def pyInt (s : PyStr) : Option Int :=
  let t := pyStrip s
  match t with
  | [] => none
  | c :: r =>
    if c = '+' then (pyDigitGroup r).map fun n => (n : Int)
    else if c = '-' then (pyDigitGroup r).map fun n => -(n : Int)
    else (pyDigitGroup t).map fun n => (n : Int)

/-!
CPython `_datetimemodule.c` ISO-format time parsing.
-/

/-- CPython `parse_digits`: read exactly `n` ASCII digits starting at `pos`,
accumulating into `acc`; returns the value and the next position. -/
def parseDigits (s : PyStr) (pos acc n : Nat) : Option (Nat × Nat) :=
  match n with
  | 0 => some (acc, pos)
  | m + 1 =>
    let c := charAt s pos
    if isPyDigit c then parseDigits s (pos + 1) (acc * 10 + digitVal c) m
    else none

/-- Result of `parse_hh_mm_ss_ff`: `err` for the negative return codes, and
`out trailing h mi sec us` for a non-negative return (`trailing` models
return value 1, a consumed non-NUL character right at `pEnd`). -/
inductive HmsfOut
  | err
  | out (trailing : Bool) (h mi sec us : Nat)
deriving Repr, DecidableEq

/-- Microsecond scale factor for a fraction of `toParse` digits (1 to 5),
CPython's `correction` array; 6 digits need no scaling. -/
def usCorrection (toParse : Nat) : Nat :=
  match toParse with
  | 1 => 100000
  | 2 => 10000
  | 3 => 1000
  | 4 => 100
  | 5 => 10
  | _ => 1

/-- Fractional-seconds section of CPython `parse_hh_mm_ss_ff`: at most six
digits are significant, any further characters up to `pEnd` must all be
digits.  An empty fraction returns code 1 (observable as `trailing`). -/
def hmsfFrac (s : PyStr) (pEnd pos h mi sec : Nat) : HmsfOut :=
  let lenRem := pEnd - pos
  let toParse := min lenRem 6
  if toParse = 0 then .out true h mi sec 0
  else
    match parseDigits s pos 0 toParse with
    | none => .err
    | some (us0, pos1) =>
      let us := us0 * usCorrection toParse
      if ((s.drop pos1).take (pEnd - pos1)).all isPyDigit then .out false h mi sec us
      else .err

/-- Main loop of CPython `parse_hh_mm_ss_ff`: up to three two-digit
components, separator style fixed by the first following character; `rem`
counts the iterations left (`rem = 3` is the hour component). -/
def hmsfLoop (s : PyStr) (pEnd : Nat) : Nat → Nat → Bool → Nat → Nat → Nat → HmsfOut
  | 0, pos, _, h, mi, sec => hmsfFrac s pEnd pos h mi sec
  | remm + 1, pos, hasSep, h, mi, sec =>
    match parseDigits s pos 0 2 with
    | none => .err
    | some (v, p1) =>
      let h' := if remm = 2 then v else h
      let mi' := if remm = 1 then v else mi
      let sec' := if remm = 0 then v else sec
      let c := charAt s p1
      let p2 := p1 + 1
      let hs := if remm = 2 then c = ':' else hasSep
      if pEnd ≤ p2 then .out (c ≠ nulChar) h' mi' sec' 0
      else if hs ∧ c = ':' then hmsfLoop s pEnd remm p2 hs h' mi' sec'
      else if c = '.' ∨ c = ',' then hmsfFrac s pEnd p2 h' mi' sec'
      else if ¬hs then hmsfLoop s pEnd remm (p2 - 1) hs h' mi' sec'
      else .err

/-- CPython `parse_hh_mm_ss_ff` over positions `[pos, pEnd)` of buffer `s`. -/
def parseHMSF (s : PyStr) (pEnd pos : Nat) : HmsfOut :=
  hmsfLoop s pEnd 3 pos true 0 0 0

/-- Scan for the time-zone marker: index of the first `Z`, `+` or `-`, as
CPython's do-while scan (an empty range still advances once). -/
def isSignChar (c : Char) : Bool := c = 'Z' || c = '+' || c = '-'

/-- Index scan helper for `scanSign`. -/
def scanSignAux : List Char → Nat → Nat
  | [], i => i
  | c :: rest, i => if isSignChar c then i else scanSignAux rest (i + 1)

/-- Position of the time-zone marker in a time string, per CPython's do-while
loop in `parse_isoformat_time` (the empty string yields position 1). -/
def scanSign (s : PyStr) : Nat :=
  match s with
  | [] => 1
  | _ => scanSignAux s 0

/-- Parsed time components: hour, minute, second, microsecond and an
optional UTC offset in microseconds. -/
structure IsoTime where
  hour : Nat
  minute : Nat
  second : Nat
  microsecond : Nat
  tzOffsetUs : Option Int
deriving Repr, DecidableEq

/-- CPython `parse_isoformat_time`: time components, then either end of
string (trailing garbage rejected), a final `Z`, or a signed offset parsed
with `parse_hh_mm_ss_ff` (which must consume the tail exactly). -/
def parseIsoformatTime (s : PyStr) : Option IsoTime :=
  let len := s.length
  let tzpos := scanSign s
  match parseHMSF s tzpos 0 with
  | .err => none
  | .out trailing h mi sec us =>
    if tzpos = len then
      if trailing then none else some ⟨h, mi, sec, us, none⟩
    else if charAt s tzpos = 'Z' then
      if tzpos + 1 = len then some ⟨h, mi, sec, us, some 0⟩ else none
    else
      let sign : Int := if charAt s tzpos = '-' then -1 else 1
      match parseHMSF s len (tzpos + 1) with
      | .err => none
      | .out trailing2 th tm ts tus =>
        if trailing2 then none
        else some ⟨h, mi, sec, us,
          some (sign * (((th * 3600 + tm * 60 + ts) : Int) * 1000000 + tus))⟩

/-- Python `datetime.time`: wall-clock fields plus an optional fixed UTC
offset in microseconds (`none` is a naive time). -/
structure PyTime where
  hour : Nat
  minute : Nat
  second : Nat
  microsecond : Nat
  tzOffsetUs : Option Int
deriving Repr, DecidableEq

/-- Microseconds elapsed since local midnight, the packed comparison key of
a `time`'s fields. -/
def PyTime.keyUs (t : PyTime) : Int :=
  ((t.hour * 60 + t.minute) * 60 + t.second : Nat) * 1000000 + t.microsecond

/-- Microseconds in 24 hours. -/
def dayUs : Int := 86400000000

/-- Python `datetime.time.fromisoformat` (CPython 3.11 C implementation):
strip a single leading `T`, parse, then apply the `time` constructor's
field checks and the `timezone` constructor's strict 24-hour offset bound. -/
def timeFromIsoformat (s : PyStr) : Option PyTime :=
  let p := if charAt s 0 = 'T' then s.drop 1 else s
  match parseIsoformatTime p with
  | none => none
  | some it =>
    if it.hour ≤ 23 ∧ it.minute ≤ 59 ∧ it.second ≤ 59 ∧ it.microsecond ≤ 999999 then
      match it.tzOffsetUs with
      | none => some ⟨it.hour, it.minute, it.second, it.microsecond, none⟩
      | some off =>
        if -dayUs < off ∧ off < dayUs then
          some ⟨it.hour, it.minute, it.second, it.microsecond, some off⟩
        else none
    else none

/-- Python `time` comparison: naive pairs and equal-offset aware pairs
compare by fields; aware pairs with different offsets compare the
offset-adjusted instants; mixed naive/aware comparison raises `TypeError`
(the `error` case). -/
def pyTimeCmp (a b : PyTime) : Except Unit Ordering :=
  match a.tzOffsetUs, b.tzOffsetUs with
  | none, none => .ok (compare a.keyUs b.keyUs)
  | some x, some y =>
    if x = y then .ok (compare a.keyUs b.keyUs)
    else .ok (compare (a.keyUs - x) (b.keyUs - y))
  | _, _ => .error ()

/-!
Schedule grammar parser (`parse_schedule`).
-/

/-- A parsed `RUNNINGSCHEDULE`: the tuple `(start_time, stop_time,
first_day, last_day)` returned by `parse_schedule` on success. -/
structure Schedule where
  start_time : PyTime
  stop_time : PyTime
  first_day : Int
  last_day : Int
deriving Repr, DecidableEq

/-- Outcome of `parse_schedule`: `fail` is the function returning `False`,
`crash` is an uncaught exception escaping the function (the `TypeError`
raised when one parsed time is aware and the other naive), `ok` is a
returned tuple. -/
inductive ParseResult
  | fail
  | crash
  | ok (s : Schedule)
deriving Repr, DecidableEq

/-- Transcription of `parse_schedule` (power_control.py lines 121-159):
split on colons into exactly five fields, parse fields 0-1 and 2-3 as ISO
times joined by a colon (a `ValueError` is caught and yields `False`),
require start strictly before stop, split field 4 on `-` into exactly two
`int`-parseable day tokens, and require `1 <= first_day <= last_day <= 7`. -/
def parse_schedule (schedule : PyStr) : ParseResult :=
  let tokens := pySplitOn ':' schedule
  if tokens.length ≠ 5 then .fail
  else
    match timeFromIsoformat (tokens.getD 0 [] ++ [':'] ++ tokens.getD 1 []),
          timeFromIsoformat (tokens.getD 2 [] ++ [':'] ++ tokens.getD 3 []) with
    | some start_time, some stop_time =>
      match pyTimeCmp start_time stop_time with
      | .error _ => .crash
      | .ok ord =>
        if ord ≠ .lt then .fail
        else
          let day_tokens := pySplitOn '-' (tokens.getD 4 [])
          if day_tokens.length ≠ 2 then .fail
          else
            match pyInt (day_tokens.getD 0 []), pyInt (day_tokens.getD 1 []) with
            | some first_day, some last_day =>
              if last_day < first_day then .fail
              else if first_day < 1 ∨ first_day > 7 ∨ last_day < 1 ∨ last_day > 7 then .fail
              else .ok ⟨start_time, stop_time, first_day, last_day⟩
            | _, _ => .fail
    | _, _ => .fail

/-!
Instance snapshot, configuration, and the decision engine
(`do_power_control`).
-/

/-- EC2 instance snapshot: identifier, power state name, and the tag list
(`None` or a list of key/value pairs). -/
structure Instance where
  id : PyStr
  stateName : PyStr
  tags : Option (List (PyStr × PyStr))

/-- Runtime configuration: the fields of `Config` the decision engine and
throttle read (protected owners already stripped and lowercased by the
constructor, the `TZ` default zone name, and the notification wait). -/
structure Config where
  protected_owners : List PyStr
  tz : PyStr
  notification_wait_hours : Int

/-- Local wall-clock view of an instant in some zone: ISO weekday and
time-of-day fields, i.e. what `now.astimezone(z)` exposes through
`isoweekday()` and `time()`. -/
structure LocalNow where
  isoweekday : Int
  hour : Nat
  minute : Nat
  second : Nat
  microsecond : Nat

/-- A resolved time zone: the conversion taking the UTC instant of the run
to its local wall clock. -/
abbrev Zone := Nat → LocalNow

/-- The `zoneinfo` database: `ZoneInfo(name)` either resolves a name to a
zone or raises `ZoneInfoNotFoundError` (`none`). -/
abbrev ZoneDb := PyStr → Option Zone

/-- Tag key `OWNEREMAIL`. -/
def ownerKey : PyStr := "OWNEREMAIL".data

/-- Tag key `RUNNINGSCHEDULE`. -/
def scheduleKey : PyStr := "RUNNINGSCHEDULE".data

/-- Tag key `RUNNINGSCHEDULE_TZ`. -/
def scheduleTzKey : PyStr := "RUNNINGSCHEDULE_TZ".data

/-- Sentinel owner value `(no owner)`. -/
def noOwner : PyStr := "(no owner)".data

/-- Sentinel schedule value `(no schedule)`. -/
def noSchedule : PyStr := "(no schedule)".data

/-- Transcription of `get_tag`: empty string when the instance has no tags
or no tag with the key; otherwise the first matching tag's value. -/
def get_tag (inst : Instance) (key : PyStr) : PyStr :=
  match inst.tags with
  | none => []
  | some ts =>
    match ts.find? fun t => t.1 = key with
    | some t => t.2
    | none => []

/-- Transcription of `get_instance_owner`: the `OWNEREMAIL` tag, stripped
and lowercased, with the empty string replaced by the `(no owner)`
sentinel. -/
def get_instance_owner (inst : Instance) : PyStr :=
  let o := pyLower (pyStrip (get_tag inst ownerKey))
  if o = [] then noOwner else o

/-- Transcription of `get_running_schedule`: the `RUNNINGSCHEDULE` tag, with
the empty string replaced by `(no schedule)`. -/
def get_running_schedule (inst : Instance) : PyStr :=
  let s := get_tag inst scheduleKey
  if s = [] then noSchedule else s

/-- Transcription of `get_running_schedule_tz`: the `RUNNINGSCHEDULE_TZ`
tag, with the empty string replaced by the configured default `TZ`. -/
def get_running_schedule_tz (cfg : Config) (inst : Instance) : PyStr :=
  let s := get_tag inst scheduleTzKey
  if s = [] then cfg.tz else s

/-- Transcription of `instance_is_running`. -/
def instance_is_running (inst : Instance) : Bool :=
  inst.stateName = "running".data

/-- The classification enum of `do_power_control`. -/
inductive PowerControlReason
  | NOT_RUNNING
  | MALFORMED
  | DAY_MISMATCH
  | TIME_MISMATCH
  | ALLOWED
  | NO_OWNER
  | PROTECTED_OWNER
  | INVALID_ZONE
deriving Repr, DecidableEq

/-- Transcription of `do_power_control` (power_control.py lines 202-248),
with the ambient state made explicit: `zdb` is the `zoneinfo` database and
`now` the UTC instant taken at evaluation time.  `Except.error` models an
uncaught exception escaping the function (the `TypeError` from comparing a
naive current time against an offset-aware schedule time).  The checks run
in source order: running state, owner sentinel, protected owner, schedule
parse (`MALFORMED`), zone resolution (`INVALID_ZONE`), weekday range, then
the time-of-day range with Python's short-circuit `or`. -/
def do_power_control (cfg : Config) (zdb : ZoneDb) (now : Nat) (inst : Instance) :
    Except Unit PowerControlReason :=
  if instance_is_running inst = false then .ok .NOT_RUNNING
  else
    let owner := get_instance_owner inst
    if owner = noOwner then .ok .NO_OWNER
    else if owner ∈ cfg.protected_owners then .ok .PROTECTED_OWNER
    else
      match parse_schedule (get_running_schedule inst) with
      | .fail => .ok .MALFORMED
      | .crash => .error ()
      | .ok sched =>
        match zdb (get_running_schedule_tz cfg inst) with
        | none => .ok .INVALID_ZONE
        | some z =>
          let lnow := z now
          let current_day := lnow.isoweekday
          let current_time : PyTime :=
            ⟨lnow.hour, lnow.minute, lnow.second, lnow.microsecond, none⟩
          if current_day < sched.first_day ∨ current_day > sched.last_day then
            .ok .DAY_MISMATCH
          else
            match pyTimeCmp current_time sched.start_time with
            | .error _ => .error ()
            | .ok o1 =>
              if o1 = .lt then .ok .TIME_MISMATCH
              else
                match pyTimeCmp current_time sched.stop_time with
                | .error _ => .error ()
                | .ok o2 =>
                  if o2 = .gt then .ok .TIME_MISMATCH else .ok .ALLOWED

/-!
Notification throttle tracker (`process_notification_times`).
-/

/-- The decision-result record `get_instance_dict` builds per instance: the
fields the throttle and the grouping steps read. -/
structure InstDict where
  id : PyStr
  owner : PyStr
  region : PyStr
deriving Repr, DecidableEq

/-- Python `dict` assignment `d[k] = v` on an insertion-ordered association
list: update in place when the key exists, append otherwise. -/
def dictInsert {α : Type} (m : List (PyStr × α)) (k : PyStr) (v : α) : List (PyStr × α) :=
  match m with
  | [] => [(k, v)]
  | e :: r => if e.1 = k then (k, v) :: r else e :: dictInsert r k v

/-- Python `dict` lookup / `in` test on an insertion-ordered association
list. -/
def lookupStr {α : Type} (m : List (PyStr × α)) (k : PyStr) : Option α :=
  match m with
  | [] => none
  | e :: r => if e.1 = k then some e.2 else lookupStr r k

/-- Microseconds in one hour, the scale of `timedelta(hours=...)` against
microsecond-precision UTC instants. -/
def hourUs : Int := 3600000000

/-- The pruning loop of `process_notification_times`: rebuild the record
dict keeping exactly the entries with `time + timedelta(hours=wait) >
utc_now`.  Timestamps are UTC instants in microseconds. -/
def prune_notification_times (times : List (PyStr × Int)) (waitHours utcNow : Int) :
    List (PyStr × Int) :=
  times.foldl
    (fun m e => if e.2 + waitHours * hourUs > utcNow then dictInsert m e.1 e.2 else m) []

/-- The candidate loop of `process_notification_times`: suppress instances
whose id is in the pruned record dict, otherwise record `utc_now` for the
id and keep the instance in the notify list. -/
def notifyLoop (utcNow : Int) :
    List InstDict → List (PyStr × Int) → List InstDict × List (PyStr × Int)
  | [], m => ([], m)
  | i :: rest, m =>
    if (lookupStr m i.id).isSome then notifyLoop utcNow rest m
    else
      let step := notifyLoop utcNow rest (dictInsert m i.id utcNow)
      (i :: step.1, step.2)

/-- Transcription of `process_notification_times` (power_control.py lines
251-276) with the persisted state passed and returned explicitly: prune the
loaded records, filter the candidates against the pruned dict while
recording fresh timestamps, and return the notify list together with the
record dict written back. -/
def process_notification_times (times : List (PyStr × Int)) (waitHours : Int)
    (instances : List InstDict) (utcNow : Int) : List InstDict × List (PyStr × Int) :=
  notifyLoop utcNow instances (prune_notification_times times waitHours utcNow)

/-!
Aggregation (`group_by_region`, `group_by_owner`).
-/

/-- One `defaultdict(list)` update of the grouping loops: fetch the key's
list (created empty at the end of the dict when absent), append the
instance, and store it back. -/
def upsertAppend (m : List (PyStr × List InstDict)) (k : PyStr) (i : InstDict) :
    List (PyStr × List InstDict) :=
  match m with
  | [] => [(k, [i])]
  | e :: r => if e.1 = k then (e.1, e.2 ++ [i]) :: r else e :: upsertAppend r k i

/-- The common shape of the two grouping loops. -/
def group_by_key (key : InstDict → PyStr) (instances : List InstDict) :
    List (PyStr × List InstDict) :=
  instances.foldl (fun m i => upsertAppend m (key i) i) []

/-- Transcription of `group_by_region`. -/
def group_by_region (instances : List InstDict) : List (PyStr × List InstDict) :=
  group_by_key (fun i => i.region) instances

/-- Transcription of `group_by_owner`. -/
def group_by_owner (instances : List InstDict) : List (PyStr × List InstDict) :=
  group_by_key (fun i => i.owner) instances

/-!
Persisted notification-times storage: `datetime.isoformat`,
`datetime.fromisoformat`, `astimezone(pytz.utc)`, and the
`Config.notification_times` property pair.
-/

/-- Python `datetime.datetime`: calendar date, time-of-day, and an optional
fixed UTC offset in microseconds (`none` is a naive datetime). -/
structure PyDateTime where
  year : Nat
  month : Nat
  day : Nat
  hour : Nat
  minute : Nat
  second : Nat
  microsecond : Nat
  tzOffsetUs : Option Int
deriving Repr, DecidableEq

/-- Gregorian leap-year test. -/
def isLeap (y : Nat) : Bool := y % 4 = 0 && (y % 100 ≠ 0 || y % 400 = 0)

/-- Days in a month of the proleptic Gregorian calendar. -/
def daysInMonth (y m : Nat) : Nat :=
  if m = 2 then (if isLeap y then 29 else 28)
  else if m = 4 ∨ m = 6 ∨ m = 9 ∨ m = 11 then 30
  else 31

/-- Field validity enforced by the `datetime` constructor
(`MINYEAR = 1`, `MAXYEAR = 9999`). -/
def validPyDateTime (d : PyDateTime) : Prop :=
  1 ≤ d.year ∧ d.year ≤ 9999 ∧ 1 ≤ d.month ∧ d.month ≤ 12 ∧
  1 ≤ d.day ∧ d.day ≤ daysInMonth d.year d.month ∧
  d.hour ≤ 23 ∧ d.minute ≤ 59 ∧ d.second ≤ 59 ∧ d.microsecond ≤ 999999

instance (d : PyDateTime) : Decidable (validPyDateTime d) := by
  unfold validPyDateTime; infer_instance

/-- The calendar date one day later; `none` past `9999-12-31`. -/
def nextDay (y m d : Nat) : Option (Nat × Nat × Nat) :=
  if d < daysInMonth y m then some (y, m, d + 1)
  else if m < 12 then some (y, m + 1, 1)
  else if y < 9999 then some (y + 1, 1, 1)
  else none

/-- The calendar date one day earlier; `none` before `0001-01-01`. -/
def prevDay (y m d : Nat) : Option (Nat × Nat × Nat) :=
  if 1 < d then some (y, m, d - 1)
  else if 1 < m then some (y, m - 1, daysInMonth y (m - 1))
  else if 1 < y then some (y - 1, 12, 31)
  else none

/-- Microseconds since local midnight of a datetime's time-of-day. -/
def todUs (d : PyDateTime) : Int :=
  ((d.hour * 60 + d.minute) * 60 + d.second : Nat) * 1000000 + d.microsecond

/-- Rebuild a datetime from a date, a microsecond time-of-day in
`[0, dayUs)`, and an offset. -/
def withTod (ymd : Nat × Nat × Nat) (tod : Int) (off : Option Int) : PyDateTime :=
  let t := tod.toNat
  let us := t % 1000000
  let t1 := t / 1000000
  let s := t1 % 60
  let t2 := t1 / 60
  ⟨ymd.1, ymd.2.1, ymd.2.2, t2 / 60, t2 % 60, s, us, off⟩

/-- Python `dt.astimezone(pytz.utc)`.  An aware datetime is shifted by the
negation of its own offset; a naive datetime is interpreted in the system
time zone, modelled as the fixed offset `localOffUs` (the conversion the
source performs through the platform zone).  Offsets are strictly below 24
hours, so the date moves by at most one day; a shift outside the supported
calendar raises (`none`). -/
def astimezoneUtc (localOffUs : Int) (d : PyDateTime) : Option PyDateTime :=
  let off := d.tzOffsetUs.getD localOffUs
  let t := todUs d - off
  if 0 ≤ t ∧ t < dayUs then some (withTod (d.year, d.month, d.day) t (some 0))
  else if t < 0 then
    match prevDay d.year d.month d.day with
    | none => none
    | some ymd => some (withTod ymd (t + dayUs) (some 0))
  else
    match nextDay d.year d.month d.day with
    | none => none
    | some ymd => some (withTod ymd (t - dayUs) (some 0))

/-- Two-digit zero-padded decimal rendering (values below 100). -/
def pad2 (n : Nat) : PyStr := [Nat.digitChar (n / 10), Nat.digitChar (n % 10)]

/-- Four-digit zero-padded decimal rendering (values below 10000). -/
def pad4 (n : Nat) : PyStr :=
  [Nat.digitChar (n / 1000), Nat.digitChar (n / 100 % 10),
   Nat.digitChar (n / 10 % 10), Nat.digitChar (n % 10)]

/-- Six-digit zero-padded decimal rendering (values below 1000000). -/
def pad6 (n : Nat) : PyStr :=
  [Nat.digitChar (n / 100000), Nat.digitChar (n / 10000 % 10),
   Nat.digitChar (n / 1000 % 10), Nat.digitChar (n / 100 % 10),
   Nat.digitChar (n / 10 % 10), Nat.digitChar (n % 10)]

/-- The UTC-offset suffix of `datetime.isoformat` for a whole-minute offset:
sign, hours and minutes (the only shape the source ever writes is
`+00:00`). -/
def isoOffsetSuffix (off : Int) : PyStr :=
  let sign := if off < 0 then '-' else '+'
  let a := off.natAbs / 1000000 / 60
  sign :: (pad2 (a / 60) ++ [':'] ++ pad2 (a % 60))

/-- Python `datetime.isoformat()`: `YYYY-MM-DDTHH:MM:SS`, microseconds as
`.ffffff` only when nonzero, and the offset suffix for aware values. -/
def dtIsoformat (d : PyDateTime) : PyStr :=
  pad4 d.year ++ ['-'] ++ pad2 d.month ++ ['-'] ++ pad2 d.day ++ ['T'] ++
  pad2 d.hour ++ [':'] ++ pad2 d.minute ++ [':'] ++ pad2 d.second ++
  (if d.microsecond = 0 then [] else '.' :: pad6 d.microsecond) ++
  (match d.tzOffsetUs with
   | none => []
   | some off => isoOffsetSuffix off)

/-- Python `datetime.fromisoformat` (CPython 3.11), restricted to the
extended calendar-date form `YYYY-MM-DD` — the only date form
`datetime.isoformat` emits and hence the only one the persisted state can
contain; basic, week and ordinal date forms of the full parser are not
modelled.  After the ten date characters, any single character separates
date from time; the time part reuses `parse_isoformat_time`, and the
`datetime`/`timezone` constructor checks follow. -/
def dtFromIso (s : PyStr) : Option PyDateTime :=
  match s with
  | y1 :: y2 :: y3 :: y4 :: '-' :: m1 :: m2 :: '-' :: d1 :: d2 :: rest =>
    if isPyDigit y1 && isPyDigit y2 && isPyDigit y3 && isPyDigit y4 &&
       isPyDigit m1 && isPyDigit m2 && isPyDigit d1 && isPyDigit d2 then
      let y := ((digitVal y1 * 10 + digitVal y2) * 10 + digitVal y3) * 10 + digitVal y4
      let mo := digitVal m1 * 10 + digitVal m2
      let dd := digitVal d1 * 10 + digitVal d2
      let timePart : Option IsoTime :=
        match rest with
        | [] => some ⟨0, 0, 0, 0, none⟩
        | _ :: tstr => parseIsoformatTime tstr
      match timePart with
      | none => none
      | some it =>
        let cand : PyDateTime := ⟨y, mo, dd, it.hour, it.minute, it.second,
          it.microsecond, it.tzOffsetUs⟩
        if validPyDateTime cand then
          match it.tzOffsetUs with
          | none => some cand
          | some off => if -dayUs < off ∧ off < dayUs then some cand else none
        else none
    else none
  | _ => none

/-- Value pipeline of the `Config.notification_times` getter, applied in
file order to the JSON object's entries:
`datetime.fromisoformat(value).astimezone(pytz.utc)`; the first exception
aborts the dict comprehension (`error`). -/
def readEntries (localOffUs : Int) :
    List (PyStr × PyStr) → Except Unit (List (PyStr × PyDateTime))
  | [] => .ok []
  | (k, v) :: rest =>
    match dtFromIso v with
    | none => .error ()
    | some d =>
      match astimezoneUtc localOffUs d with
      | none => .error ()
      | some d' =>
        match readEntries localOffUs rest with
        | .error e => .error e
        | .ok tail => .ok ((k, d') :: tail)

/-- The persisted tracking file as the getter sees it: `none` when the path
does not exist, otherwise the result of `json.load` — `error` when the file
cannot be read or is not valid JSON, `ok` with the object's key/value pairs
in file order otherwise. -/
abbrev TrackingFile := Option (Except Unit (List (PyStr × PyStr)))

/-- Transcription of the `Config.notification_times` getter (power_control.py
lines 79-86): a missing file yields the empty dict; an existing file that
fails to read or parse raises out of the property (`error`); otherwise every
value is parsed and normalised to UTC. -/
def loadNotificationTimes (localOffUs : Int) (file : TrackingFile) :
    Except Unit (List (PyStr × PyDateTime)) :=
  match file with
  | none => .ok []
  | some (.error _) => .error ()
  | some (.ok kvs) => readEntries localOffUs kvs

/-- Python string comparison (code-point lexicographic), as `sort_keys=True`
orders JSON object keys. -/
def pyStrLe (a b : PyStr) : Prop := a ≤ b

instance : DecidableRel pyStrLe := fun a b => by unfold pyStrLe; infer_instance

/-- Key order on entry pairs. -/
def entryLe {α : Type} (a b : PyStr × α) : Prop := pyStrLe a.1 b.1

instance {α : Type} : DecidableRel (@entryLe α) := fun a b => by
  unfold entryLe; infer_instance

/-- Transcription of the `Config.notification_times` setter (power_control.py
lines 88-92): render every value with `isoformat()` and serialise the
object with its keys sorted (`json.dump(..., sort_keys=True)`); the file
content is modelled as the ordered key/value pairs of the JSON object. -/
def writeNotificationTimes (m : List (PyStr × PyDateTime)) : List (PyStr × PyStr) :=
  List.insertionSort entryLe (m.map fun e => (e.1, dtIsoformat e.2))

/-!
The spec-side strict schedule grammar (section 4.1), used to compare
`parse_schedule` against the specified five-field colon grammar
`HH:MM:HH:MM:D-D`.
-/

/-- Exactly two ASCII digits. -/
def isDigit2 (s : PyStr) : Bool :=
  match s with
  | [a, b] => isPyDigit a && isPyDigit b
  | _ => false

/-- Value of a two-digit field. -/
def digit2Val (s : PyStr) : Nat :=
  match s with
  | [a, b] => digitVal a * 10 + digitVal b
  | _ => 0

/-- Nonempty all-ASCII-digit token. -/
def isDigitTok (s : PyStr) : Bool := !s.isEmpty && s.all isPyDigit

/-- Value of an all-digit token. -/
def digitTokVal (s : PyStr) : Nat := s.foldl (fun a c => a * 10 + digitVal c) 0

/-- Modelled from the spec, section 4.1: the five-field colon grammar
`HH:MM:HH:MM:D-D` with numeric two-digit time components
(`00<=HH<=23`, `00<=MM<=59`), start strictly before stop, field 4 exactly
one `-` between two integer day tokens, and `1 <= first_day <= last_day
<= 7`.  Used only as the comparison point for refinement claims about
`parse_schedule`; the executable authority remains `parse_schedule`. -/
def specParseSchedule (s : PyStr) : Option Schedule :=
  match pySplitOn ':' s with
  | [t0, t1, t2, t3, t4] =>
    if isDigit2 t0 && isDigit2 t1 && isDigit2 t2 && isDigit2 t3 then
      let h1 := digit2Val t0
      let m1 := digit2Val t1
      let h2 := digit2Val t2
      let m2 := digit2Val t3
      if h1 ≤ 23 && m1 ≤ 59 && h2 ≤ 23 && m2 ≤ 59 &&
         (h1 * 60 + m1 < h2 * 60 + m2) then
        match pySplitOn '-' t4 with
        | [d1, d2] =>
          if isDigitTok d1 && isDigitTok d2 then
            let f := digitTokVal d1
            let l := digitTokVal d2
            if 1 ≤ f && f ≤ l && l ≤ 7 then
              some ⟨⟨h1, m1, 0, 0, none⟩, ⟨h2, m2, 0, 0, none⟩, (f : Int), (l : Int)⟩
            else none
          else none
        | _ => none
      else none
    else none
  | _ => none

/-!
Theorems.  Claims are settled against the transcriptions above; shared
facts are factored into helper lemmas.
-/

theorem lookupStr_upsertAppend (m : List (PyStr × List InstDict)) (k' : PyStr)
    (i : InstDict) (k : PyStr) :
    lookupStr (upsertAppend m k' i) k =
      if k = k' then some (((lookupStr m k').getD []) ++ [i]) else lookupStr m k := by
  induction m with
  | nil =>
    by_cases h : k = k'
    · subst h; simp [upsertAppend, lookupStr]
    · have h2 : ¬ k' = k := fun hh => h hh.symm
      simp [upsertAppend, lookupStr, h, h2]
  | cons e r ih =>
    by_cases he : e.1 = k'
    · subst he
      by_cases hk : k = e.1
      · subst hk; simp [upsertAppend, lookupStr]
      · have h2 : ¬ e.1 = k := fun hh => hk hh.symm
        simp [upsertAppend, lookupStr, hk, h2]
    · by_cases hk : e.1 = k
      · have h3 : ¬ k = k' := fun hh => he (hk.trans hh)
        simp [upsertAppend, lookupStr, he, hk, h3]
      · simp [upsertAppend, lookupStr, he, hk, ih]

theorem lookup_group_fold (key : InstDict → PyStr) (k : PyStr) (l : List InstDict)
    (acc : List (PyStr × List InstDict)) :
    lookupStr (l.foldl (fun m i => upsertAppend m (key i) i) acc) k =
      match lookupStr acc k with
      | some g => some (g ++ l.filter fun i => key i == k)
      | none =>
        if (l.filter fun i => key i == k).isEmpty then none
        else some (l.filter fun i => key i == k) := by
  induction l generalizing acc with
  | nil =>
    cases h : lookupStr acc k <;> simp [h]
  | cons i rest ih =>
    rw [List.foldl_cons, ih, lookupStr_upsertAppend]
    by_cases hk : k = key i
    · subst hk
      have hf : List.filter (fun j => key j == key i) (i :: rest)
          = i :: List.filter (fun j => key j == key i) rest := by
        simp [List.filter]
      rw [hf]
      cases h : lookupStr acc (key i) with
      | none => simp [h]
      | some g => simp [h]
    · have hne : (key i == k) = false := beq_eq_false_iff_ne.mpr fun hh => hk hh.symm
      have hf : List.filter (fun j => key j == k) (i :: rest)
          = List.filter (fun j => key j == k) rest := by
        simp [List.filter, hne]
      rw [hf]
      simp [hk]

theorem lookup_group_by_key (key : InstDict → PyStr) (l : List InstDict) (k : PyStr) :
    lookupStr (group_by_key key l) k =
      if (l.filter fun i => key i == k).isEmpty then none
      else some (l.filter fun i => key i == k) := by
  unfold group_by_key
  rw [lookup_group_fold]
  simp [lookupStr]

/-- Claim C9: for every input list of decision results, grouping by owner
and grouping by region each send a key to exactly the input-order sublist
of members with that key (so encounter order is preserved within every
group), and no key is present whose group would be empty. -/
theorem spec_C9_grouping (l : List InstDict) (k : PyStr) :
    (lookupStr (group_by_region l) k =
      if (l.filter fun i => i.region == k).isEmpty then none
      else some (l.filter fun i => i.region == k))
    ∧ (lookupStr (group_by_owner l) k =
      if (l.filter fun i => i.owner == k).isEmpty then none
      else some (l.filter fun i => i.owner == k)) :=
  ⟨lookup_group_by_key (fun i => i.region) l k,
   lookup_group_by_key (fun i => i.owner) l k⟩

/-- Claim C3, counterexample: a tracking file that exists but cannot be
read or parsed as JSON does not degrade to the empty state — the exception
propagates out of the getter, so the run fails. -/
theorem spec_C3_counterexample :
    loadNotificationTimes 0 (some (.error ())) = .error () := rfl

/-- Claim C3 as amended: only a missing tracking file is treated as the
empty initial state (first-run semantics); when the file exists but cannot
be read or parsed, the read raises and is fatal to the run. -/
theorem spec_C3_amended (localOffUs : Int) :
    loadNotificationTimes localOffUs none = .ok []
    ∧ loadNotificationTimes localOffUs (some (.error ())) = .error () :=
  ⟨rfl, rfl⟩

/-!
Dictionary and throttle lemmas.
-/

/-- Keys of an association list are pairwise distinct. -/
def keysNodup {α : Type} (m : List (PyStr × α)) : Prop := (m.map Prod.fst).Nodup

instance {α : Type} (m : List (PyStr × α)) : Decidable (keysNodup m) := by
  unfold keysNodup; infer_instance

theorem lookupStr_dictInsert {α : Type} (m : List (PyStr × α)) (k : PyStr) (v : α)
    (j : PyStr) :
    lookupStr (dictInsert m k v) j = if j = k then some v else lookupStr m j := by
  induction m with
  | nil =>
    by_cases h : j = k
    · subst h; simp [dictInsert, lookupStr]
    · have h2 : ¬ k = j := fun hh => h hh.symm
      simp [dictInsert, lookupStr, h, h2]
  | cons e r ih =>
    by_cases he : e.1 = k
    · subst he
      by_cases hj : j = e.1
      · subst hj; simp [dictInsert, lookupStr]
      · have h2 : ¬ e.1 = j := fun hh => hj hh.symm
        simp [dictInsert, lookupStr, hj, h2]
    · by_cases hj : e.1 = j
      · have h3 : ¬ j = k := fun hh => he (hj.trans hh)
        simp [dictInsert, lookupStr, he, hj, h3]
      · simp [dictInsert, lookupStr, he, hj, ih]

theorem mem_dictInsert {α : Type} (m : List (PyStr × α)) (k : PyStr) (v : α)
    (e : PyStr × α) (h : e ∈ dictInsert m k v) : e ∈ m ∨ e = (k, v) := by
  induction m with
  | nil =>
    simp [dictInsert] at h
    exact Or.inr h
  | cons f r ih =>
    by_cases hf : f.1 = k
    · simp [dictInsert, hf] at h
      rcases h with h | h
      · exact Or.inr (by rw [h])
      · exact Or.inl (List.mem_cons_of_mem f h)
    · simp [dictInsert, hf] at h
      rcases h with h | h
      · exact Or.inl (by simp [h])
      · rcases ih h with h2 | h2
        · exact Or.inl (List.mem_cons_of_mem f h2)
        · exact Or.inr h2


theorem lookupStr_eq_none_iff {α : Type} (m : List (PyStr × α)) (j : PyStr) :
    lookupStr m j = none ↔ j ∉ m.map Prod.fst := by
  induction m with
  | nil => simp only [lookupStr, List.map_nil, List.not_mem_nil, not_false_iff]
  | cons e r ih =>
    by_cases he : e.1 = j
    · subst he
      simp only [lookupStr, if_pos rfl, List.map_cons, List.mem_cons]
      constructor
      · intro h; exact (Option.some_ne_none _ h).elim
      · intro h; exact (h (Or.inl trivial)).elim
    · have h2 : ¬ j = e.1 := fun hh => he hh.symm
      simp only [lookupStr, if_neg he, List.map_cons, List.mem_cons, ih]
      constructor
      · intro h hor
        rcases hor with h1 | h1
        · exact h2 h1
        · exact h h1
      · intro h h1
        exact h (Or.inr h1)

theorem keysNodup_dictInsert {α : Type} (m : List (PyStr × α)) (k : PyStr) (v : α)
    (h : keysNodup m) : keysNodup (dictInsert m k v) := by
  induction m with
  | nil =>
    unfold keysNodup
    simp only [dictInsert, List.map_cons, List.map_nil]
    exact List.nodup_singleton k
  | cons e r ih =>
    by_cases he : e.1 = k
    · subst he
      unfold keysNodup at h ⊢
      simp only [dictInsert, if_pos rfl, List.map_cons] at *
      exact h
    · unfold keysNodup at h ⊢
      simp only [List.map_cons, List.nodup_cons] at h
      have hr := ih h.2
      simp only [dictInsert, if_neg he, List.map_cons, List.nodup_cons]
      refine ⟨?_, hr⟩
      intro hmem
      have hsplit : ∀ j, j ∈ (dictInsert r k v).map Prod.fst → j = k ∨ j ∈ r.map Prod.fst := by
        intro j hj
        rcases List.mem_map.mp hj with ⟨f, hf, hfj⟩
        rcases mem_dictInsert r k v f hf with h2 | h2
        · exact Or.inr (hfj ▸ List.mem_map_of_mem Prod.fst h2)
        · subst hfj; rw [h2]; exact Or.inl rfl
      rcases hsplit e.1 hmem with h2 | h2
      · exact he h2
      · exact h.1 h2

theorem dictInsert_of_not_mem_keys {α : Type} (m : List (PyStr × α)) (k : PyStr) (v : α)
    (h : k ∉ m.map Prod.fst) : dictInsert m k v = m ++ [(k, v)] := by
  induction m with
  | nil => simp [dictInsert]
  | cons e r ih =>
    simp only [List.map_cons, List.mem_cons] at h
    push_neg at h
    have he : ¬ e.1 = k := fun hh => h.1 hh.symm
    simp [dictInsert, he, ih h.2]

/-- The pruning fold is, over a nodup-keyed record list, exactly a filter. -/
theorem prune_fold_eq_filter (w now : Int) (times : List (PyStr × Int))
    (acc : List (PyStr × Int))
    (h : (acc.map Prod.fst ++ times.map Prod.fst).Nodup) :
    times.foldl
      (fun m e => if e.2 + w * hourUs > now then dictInsert m e.1 e.2 else m) acc
    = acc ++ times.filter fun e => decide (e.2 + w * hourUs > now) := by
  induction times generalizing acc with
  | nil => simp
  | cons e rest ih =>
    rw [List.foldl_cons]
    rcases List.nodup_append.mp h with ⟨ha, hb, hd⟩
    by_cases hp : e.2 + w * hourUs > now
    · rw [if_pos hp]
      have hknot : e.1 ∉ acc.map Prod.fst := by
        intro hmem
        exact hd hmem (by simp)
      rw [dictInsert_of_not_mem_keys acc e.1 e.2 hknot]
      have hnd : ((acc ++ [(e.1, e.2)]).map Prod.fst ++ rest.map Prod.fst).Nodup := by
        have heq : (acc ++ [(e.1, e.2)]).map Prod.fst ++ rest.map Prod.fst
            = acc.map Prod.fst ++ e.1 :: rest.map Prod.fst := by simp
        rw [heq]
        simpa using h
      rw [ih (acc ++ [(e.1, e.2)]) hnd]
      simp [List.filter, hp]
    · rw [if_neg hp]
      have hnd : (acc.map Prod.fst ++ rest.map Prod.fst).Nodup := by
        refine List.nodup_append.mpr ⟨ha, ?_, ?_⟩
        · have hb' : (e.1 :: rest.map Prod.fst).Nodup := by simpa using hb
          exact (List.nodup_cons.mp hb').2
        · intro x hx hx2
          exact hd hx (by simp [hx2])
      rw [ih acc hnd]
      simp [List.filter, hp]

/-- Over a nodup-keyed record list, pruning keeps exactly the records still
inside the throttle window. -/
theorem prune_eq_filter (times : List (PyStr × Int)) (w now : Int)
    (h : keysNodup times) :
    prune_notification_times times w now
      = times.filter fun e => decide (e.2 + w * hourUs > now) := by
  unfold prune_notification_times
  have := prune_fold_eq_filter w now times [] (by simpa [keysNodup] using h)
  simpa using this

theorem mem_prune_fold (w now : Int) (times : List (PyStr × Int))
    (acc : List (PyStr × Int)) (hacc : ∀ e ∈ acc, e.2 + w * hourUs > now) :
    ∀ e ∈ times.foldl
      (fun m e => if e.2 + w * hourUs > now then dictInsert m e.1 e.2 else m) acc,
      e.2 + w * hourUs > now := by
  induction times generalizing acc with
  | nil => exact hacc
  | cons f rest ih =>
    rw [List.foldl_cons]
    by_cases hp : f.2 + w * hourUs > now
    · rw [if_pos hp]
      refine ih (dictInsert acc f.1 f.2) ?_
      intro e he
      rcases mem_dictInsert acc f.1 f.2 e he with h2 | h2
      · exact hacc e h2
      · rw [h2]; exact hp
    · rw [if_neg hp]
      exact ih acc hacc

theorem mem_prune (w now : Int) (times : List (PyStr × Int)) :
    ∀ e ∈ prune_notification_times times w now, e.2 + w * hourUs > now :=
  mem_prune_fold w now times [] (by intro e he; exact absurd he (List.not_mem_nil e))

theorem keysNodup_prune (w now : Int) (times : List (PyStr × Int)) :
    keysNodup (prune_notification_times times w now) := by
  unfold prune_notification_times
  have gen : ∀ (ts : List (PyStr × Int)) (acc : List (PyStr × Int)), keysNodup acc →
      keysNodup (ts.foldl
        (fun m e => if e.2 + w * hourUs > now then dictInsert m e.1 e.2 else m) acc) := by
    intro ts
    induction ts with
    | nil => intro acc h; exact h
    | cons f rest ih =>
      intro acc h
      rw [List.foldl_cons]
      by_cases hp : f.2 + w * hourUs > now
      · rw [if_pos hp]; exact ih _ (keysNodup_dictInsert acc f.1 f.2 h)
      · rw [if_neg hp]; exact ih _ h
  exact gen times [] (by unfold keysNodup; simp)

theorem mem_notifyLoop_map (now : Int) (cands : List InstDict)
    (m : List (PyStr × Int)) :
    ∀ e ∈ (notifyLoop now cands m).2, e ∈ m ∨ e.2 = now := by
  induction cands generalizing m with
  | nil => intro e he; exact Or.inl he
  | cons i rest ih =>
    intro e he
    by_cases hp : (lookupStr m i.id).isSome
    · rw [show notifyLoop now (i :: rest) m = notifyLoop now rest m by
        simp [notifyLoop, hp]] at he
      exact ih m e he
    · rw [show (notifyLoop now (i :: rest) m).2
          = (notifyLoop now rest (dictInsert m i.id now)).2 by
        simp [notifyLoop, hp]] at he
      rcases ih (dictInsert m i.id now) e he with h2 | h2
      · rcases mem_dictInsert m i.id now e h2 with h3 | h3
        · exact Or.inl h3
        · rw [h3]; exact Or.inr rfl
      · exact Or.inr h2

theorem keysNodup_notifyLoop (now : Int) (cands : List InstDict)
    (m : List (PyStr × Int)) (h : keysNodup m) :
    keysNodup (notifyLoop now cands m).2 := by
  induction cands generalizing m with
  | nil => exact h
  | cons i rest ih =>
    by_cases hp : (lookupStr m i.id).isSome
    · rw [show notifyLoop now (i :: rest) m = notifyLoop now rest m by
        simp [notifyLoop, hp]]
      exact ih m h
    · rw [show (notifyLoop now (i :: rest) m).2
          = (notifyLoop now rest (dictInsert m i.id now)).2 by
        simp [notifyLoop, hp]]
      exact ih _ (keysNodup_dictInsert m i.id now h)

theorem notifyLoop_lookup_mono (now : Int) (cands : List InstDict)
    (m : List (PyStr × Int)) (j : PyStr) (v : Int) (h : lookupStr m j = some v) :
    lookupStr (notifyLoop now cands m).2 j = some v := by
  induction cands generalizing m with
  | nil => exact h
  | cons i rest ih =>
    by_cases hp : (lookupStr m i.id).isSome
    · rw [show notifyLoop now (i :: rest) m = notifyLoop now rest m by
        simp [notifyLoop, hp]]
      exact ih m h
    · rw [show (notifyLoop now (i :: rest) m).2
          = (notifyLoop now rest (dictInsert m i.id now)).2 by
        simp [notifyLoop, hp]]
      refine ih _ ?_
      rw [lookupStr_dictInsert]
      have hji : ¬ j = i.id := by
        intro hji
        rw [← hji, h] at hp
        exact hp (by simp)
      rw [if_neg hji]
      exact h

theorem notifyLoop_keys_present (now : Int) (cands : List InstDict)
    (m : List (PyStr × Int)) :
    ∀ i ∈ cands, (lookupStr (notifyLoop now cands m).2 i.id).isSome := by
  induction cands generalizing m with
  | nil => intro i hi; exact absurd hi (List.not_mem_nil i)
  | cons i rest ih =>
    intro j hj
    by_cases hp : (lookupStr m i.id).isSome
    · rw [show notifyLoop now (i :: rest) m = notifyLoop now rest m by
        simp [notifyLoop, hp]]
      rcases List.mem_cons.mp hj with hj1 | hj1
      · subst hj1
        rcases Option.isSome_iff_exists.mp hp with ⟨v, hv⟩
        rw [notifyLoop_lookup_mono now rest m j.id v hv]
        simp
      · exact ih m j hj1
    · rw [show (notifyLoop now (i :: rest) m).2
          = (notifyLoop now rest (dictInsert m i.id now)).2 by
        simp [notifyLoop, hp]]
      rcases List.mem_cons.mp hj with hj1 | hj1
      · subst hj1
        have hv : lookupStr (dictInsert m j.id now) j.id = some now := by
          rw [lookupStr_dictInsert, if_pos rfl]
        rw [notifyLoop_lookup_mono now rest _ j.id now hv]
        simp
      · exact ih _ j hj1

theorem notifyLoop_all_present (now : Int) (cands : List InstDict)
    (m : List (PyStr × Int)) (h : ∀ i ∈ cands, (lookupStr m i.id).isSome) :
    notifyLoop now cands m = ([], m) := by
  induction cands with
  | nil => rfl
  | cons i rest ih =>
    have hp : (lookupStr m i.id).isSome := h i (List.mem_cons_self i rest)
    rw [show notifyLoop now (i :: rest) m = notifyLoop now rest m by
      simp [notifyLoop, hp]]
    exact ih fun j hj => h j (List.mem_cons_of_mem i hj)

theorem lookupStr_filter_none (m : List (PyStr × Int)) (pB : PyStr × Int → Bool)
    (j : PyStr) (t : Int) (hnd : keysNodup m) (hl : lookupStr m j = some t)
    (hp : pB (j, t) = false) : lookupStr (m.filter pB) j = none := by
  induction m with
  | nil => simp [lookupStr] at hl
  | cons e r ih =>
    unfold keysNodup at hnd
    simp only [List.map_cons, List.nodup_cons] at hnd
    by_cases he : e.1 = j
    · have ht : e.2 = t := by
        rw [lookupStr, if_pos he] at hl
        exact Option.some_injective _ hl
      have hej : e = (j, t) := by
        cases e
        simp only at he ht
        rw [he, ht]
      have hpe : pB e = false := by rw [hej]; exact hp
      have hnone : lookupStr (r.filter pB) j = none := by
        rw [lookupStr_eq_none_iff]
        intro hmem
        have hsub : (r.filter pB).map Prod.fst ⊆ r.map Prod.fst :=
          (r.filter_sublist.map Prod.fst).subset
        exact hnd.1 (he ▸ hsub hmem)
      simp [List.filter, hpe, hnone]
    · rw [lookupStr, if_neg he] at hl
      have := ih hnd.2 hl
      cases hcase : pB e with
      | true => simp [List.filter, hcase, lookupStr, he, this]
      | false => simp [List.filter, hcase, this]

theorem notifyLoop_notifies (now : Int) (cands : List InstDict)
    (m : List (PyStr × Int)) (idv : PyStr) (hm : lookupStr m idv = none)
    (hc : idv ∈ cands.map InstDict.id) :
    (∃ j ∈ (notifyLoop now cands m).1, j.id = idv)
    ∧ lookupStr (notifyLoop now cands m).2 idv = some now := by
  induction cands generalizing m with
  | nil => simp at hc
  | cons i rest ih =>
    by_cases hii : i.id = idv
    · have hp : (lookupStr m i.id).isSome = false := by
        rw [hii, hm]; rfl
      have hstep : notifyLoop now (i :: rest) m
          = (i :: (notifyLoop now rest (dictInsert m i.id now)).1,
             (notifyLoop now rest (dictInsert m i.id now)).2) := by
        simp [notifyLoop, hp]
      rw [hstep]
      constructor
      · exact ⟨i, List.mem_cons_self i _, hii⟩
      · have hv : lookupStr (dictInsert m i.id now) idv = some now := by
          rw [lookupStr_dictInsert, if_pos hii.symm]
        exact notifyLoop_lookup_mono now rest _ idv now hv
    · have hc2 : idv ∈ i.id :: rest.map InstDict.id := by
        simpa only [List.map_cons] using hc
      have hc' : idv ∈ rest.map InstDict.id := by
        rcases List.mem_cons.mp hc2 with h1 | h1
        · exact absurd h1.symm hii
        · exact h1
      by_cases hp : (lookupStr m i.id).isSome
      · rw [show notifyLoop now (i :: rest) m = notifyLoop now rest m by
          simp [notifyLoop, hp]]
        exact ih m hm hc'
      · have hstep : notifyLoop now (i :: rest) m
            = (i :: (notifyLoop now rest (dictInsert m i.id now)).1,
               (notifyLoop now rest (dictInsert m i.id now)).2) := by
          simp [notifyLoop, hp]
        rw [hstep]
        have hm' : lookupStr (dictInsert m i.id now) idv = none := by
          rw [lookupStr_dictInsert, if_neg (fun hh => hii hh.symm)]
          exact hm
        rcases ih (dictInsert m i.id now) hm' hc' with ⟨⟨j, hj1, hj2⟩, h2⟩
        exact ⟨⟨j, List.mem_cons_of_mem i hj1, hj2⟩, h2⟩

/-- Claim C7 as amended: provided the configured wait is at least one hour
(`wait_hours >= 1`), running `process_notification_times` twice in
succession with the same candidates and run time yields an empty notify
list on the second call and leaves the persisted record count unchanged. -/
theorem spec_C7_amended (times : List (PyStr × Int)) (cands : List InstDict)
    (now w : Int) (hw : 1 ≤ w) :
    (process_notification_times
      (process_notification_times times w cands now).2 w cands now).1 = []
    ∧ (process_notification_times
      (process_notification_times times w cands now).2 w cands now).2.length
      = (process_notification_times times w cands now).2.length := by
  have hs1 : (process_notification_times times w cands now).2
      = (notifyLoop now cands (prune_notification_times times w now)).2 := rfl
  set s1 := (process_notification_times times w cands now).2 with hdef
  have hnd : keysNodup s1 := by
    rw [hs1]
    exact keysNodup_notifyLoop now cands _ (keysNodup_prune w now times)
  have hall : ∀ e ∈ s1, e.2 + w * hourUs > now := by
    intro e he
    rw [hs1] at he
    rcases mem_notifyLoop_map now cands _ e he with h2 | h2
    · exact mem_prune w now times e h2
    · rw [h2]
      have hpos : 0 < w * hourUs := by
        have h0 : (0:Int) < hourUs := by norm_num [hourUs]
        exact mul_pos (lt_of_lt_of_le zero_lt_one hw) h0
      omega
  have hprune : prune_notification_times s1 w now = s1 := by
    rw [prune_eq_filter s1 w now hnd]
    apply List.filter_eq_self.mpr
    intro e he
    exact decide_eq_true (hall e he)
  have hpresent : ∀ i ∈ cands, (lookupStr s1 i.id).isSome := by
    intro i hi
    rw [hs1]
    exact notifyLoop_keys_present now cands _ i hi
  have hrun2 : process_notification_times s1 w cands now = ([], s1) := by
    unfold process_notification_times
    rw [hprune]
    exact notifyLoop_all_present now cands s1 hpresent
  rw [hrun2]
  exact ⟨rfl, rfl⟩

/-- Claim C7, counterexample: with `wait_hours = 0` (a value the
configuration admits), the freshly recorded timestamps are pruned
immediately, so the second identical call re-notifies the candidate
instead of yielding an empty notify list. -/
theorem spec_C7_counterexample :
    (process_notification_times
      (process_notification_times [] 0
        [⟨"i-1".data, "o@x".data, "us-east-1".data⟩] 0).2 0
      [⟨"i-1".data, "o@x".data, "us-east-1".data⟩] 0).1
      = [⟨"i-1".data, "o@x".data, "us-east-1".data⟩]
    ∧ (process_notification_times
      (process_notification_times [] 0
        [⟨"i-1".data, "o@x".data, "us-east-1".data⟩] 0).2 0
      [⟨"i-1".data, "o@x".data, "us-east-1".data⟩] 0).1 ≠ [] :=
  ⟨by decide, by decide⟩

/-- Claim C7, witness for the amended theorem at a concrete input. -/
theorem spec_C7_witness :
    (process_notification_times
      (process_notification_times [] 1
        [⟨"i-1".data, "o@x".data, "us-east-1".data⟩] 0).2 1
      [⟨"i-1".data, "o@x".data, "us-east-1".data⟩] 0).1 = []
    ∧ (process_notification_times
      (process_notification_times [] 1
        [⟨"i-1".data, "o@x".data, "us-east-1".data⟩] 0).2 1
      [⟨"i-1".data, "o@x".data, "us-east-1".data⟩] 0).2.length
      = (process_notification_times [] 1
        [⟨"i-1".data, "o@x".data, "us-east-1".data⟩] 0).2.length :=
  spec_C7_amended [] [⟨"i-1".data, "o@x".data, "us-east-1".data⟩] 0 1 (by decide)

/-- Claim C8: over a nodup-keyed record state, pruning drops exactly the
records with `timestamp + wait_hours <= run_time` (keeping every record
inside the window), and an instance whose record was pruned is notified on
its next encounter and recorded with the fresh timestamp `run_time`. -/
theorem spec_C8_prune_renotify (times : List (PyStr × Int)) (w now : Int)
    (hnd : keysNodup times) :
    prune_notification_times times w now
      = times.filter (fun e => decide (e.2 + w * hourUs > now))
    ∧ ∀ (cands : List InstDict) (inst : InstDict) (t : Int),
        lookupStr times inst.id = some t → t + w * hourUs ≤ now → inst ∈ cands →
        (∃ j ∈ (process_notification_times times w cands now).1, j.id = inst.id)
        ∧ lookupStr (process_notification_times times w cands now).2 inst.id
          = some now := by
  refine ⟨prune_eq_filter times w now hnd, ?_⟩
  intro cands inst t hl hexp hmem
  have hpruned : lookupStr (prune_notification_times times w now) inst.id = none := by
    rw [prune_eq_filter times w now hnd]
    refine lookupStr_filter_none times _ inst.id t hnd hl ?_
    simp only [decide_eq_false_iff_not, not_lt]
    exact hexp
  have hc : inst.id ∈ cands.map InstDict.id := List.mem_map_of_mem InstDict.id hmem
  exact notifyLoop_notifies now cands _ inst.id hpruned hc

/-- Claim C8, witness at a concrete input: a one-hour wait with the run one
hour later prunes the old record and re-notifies the instance. -/
theorem spec_C8_witness :
    (prune_notification_times [("i-1".data, 0)] 1 hourUs
      = List.filter (fun e => decide (e.2 + 1 * hourUs > hourUs)) [("i-1".data, 0)])
    ∧ ((∃ j ∈ (process_notification_times [("i-1".data, 0)] 1
          [⟨"i-1".data, "o@x".data, "us-east-1".data⟩] hourUs).1,
          j.id = (⟨"i-1".data, "o@x".data, "us-east-1".data⟩ : InstDict).id)
       ∧ lookupStr (process_notification_times [("i-1".data, 0)] 1
          [⟨"i-1".data, "o@x".data, "us-east-1".data⟩] hourUs).2
          (⟨"i-1".data, "o@x".data, "us-east-1".data⟩ : InstDict).id = some hourUs) :=
  ⟨(spec_C8_prune_renotify [("i-1".data, 0)] 1 hourUs (by decide)).1,
   (spec_C8_prune_renotify [("i-1".data, 0)] 1 hourUs (by decide)).2
     [⟨"i-1".data, "o@x".data, "us-east-1".data⟩]
     ⟨"i-1".data, "o@x".data, "us-east-1".data⟩ 0 (by decide) (by decide)
     (List.mem_singleton.mpr rfl)⟩

/-!
Schedule parser invariants and the decision-engine precedence claims.
-/

theorem parse_schedule_ok_inv (s : PyStr) (sched : Schedule)
    (h : parse_schedule s = .ok sched) :
    pyTimeCmp sched.start_time sched.stop_time = .ok .lt
    ∧ 1 ≤ sched.first_day ∧ sched.first_day ≤ sched.last_day ∧ sched.last_day ≤ 7 := by
  simp only [parse_schedule] at h
  split at h
  · exact ParseResult.noConfusion h
  split at h <;> try exact ParseResult.noConfusion h
  rename_i start_time stop_time hstart hstop
  split at h <;> try exact ParseResult.noConfusion h
  rename_i ord hord
  split at h
  · exact ParseResult.noConfusion h
  rename_i hlt
  split at h
  · exact ParseResult.noConfusion h
  split at h <;> try exact ParseResult.noConfusion h
  rename_i first_day last_day hfirst hlast
  split at h
  · exact ParseResult.noConfusion h
  rename_i hfl
  split at h
  · exact ParseResult.noConfusion h
  rename_i hrange
  injection h with h2
  subst h2
  have hordlt : ord = .lt := by
    by_contra hc
    exact hlt hc
  push_neg at hrange
  refine ⟨by rw [hord, hordlt], ?_, ?_, ?_⟩
  · exact hrange.1
  · show first_day ≤ last_day
    omega
  · exact hrange.2.2.2

/-- Claim C5: every schedule successfully returned by `parse_schedule` has
its start time strictly before its stop time under Python time comparison,
and `1 <= first_day <= last_day <= 7`. -/
theorem spec_C5_parse_invariant (s : PyStr) (sched : Schedule)
    (h : parse_schedule s = .ok sched) :
    pyTimeCmp sched.start_time sched.stop_time = .ok .lt
    ∧ 1 ≤ sched.first_day ∧ sched.first_day ≤ sched.last_day ∧ sched.last_day ≤ 7 :=
  parse_schedule_ok_inv s sched h

/-- Claim C5, witness at the spec's own example schedule. -/
theorem spec_C5_witness :
    pyTimeCmp (⟨9, 0, 0, 0, none⟩ : PyTime) (⟨17, 30, 0, 0, none⟩ : PyTime) = .ok .lt
    ∧ (1:Int) ≤ 1 ∧ (1:Int) ≤ 5 ∧ (5:Int) ≤ 7 :=
  spec_C5_parse_invariant "09:00:17:30:1-5".data
    ⟨⟨9, 0, 0, 0, none⟩, ⟨17, 30, 0, 0, none⟩, 1, 5⟩ (by decide)

/-- Sample configuration: no protected owners, default zone `Etc/UTC`. -/
def cfg0 : Config := ⟨[], "Etc/UTC".data, 12⟩

/-- Sample zone: weekday Monday, hour `t / 60`, minute `t % 60` of the run
instant. -/
def zone0 : Zone := fun t => ⟨1, t / 60, t % 60, 0, 0⟩

/-- Sample zone database resolving only `Etc/UTC`. -/
def zdb0 : ZoneDb := fun z => if z = "Etc/UTC".data then some zone0 else none

/-- Sample instance: running, owned, malformed schedule tag and an
explicitly declared unresolvable zone tag. -/
def instMalformedBadZone : Instance :=
  ⟨"i-0abc".data, "running".data,
   some [(ownerKey, "User@Example.com ".data), (scheduleKey, "bad".data),
         (scheduleTzKey, "Not/AZone".data)]⟩

/-- Sample instance: running, owned, valid schedule tag and an explicitly
declared unresolvable zone tag. -/
def instValidSchedBadZone : Instance :=
  ⟨"i-2".data, "running".data,
   some [(ownerKey, "user@example.com".data), (scheduleKey, "09:00:17:30:1-5".data),
         (scheduleTzKey, "Not/AZone".data)]⟩

/-- Sample instance: running, owned, valid schedule tag and no zone tag. -/
def instGood : Instance :=
  ⟨"i-3".data, "running".data,
   some [(ownerKey, "user@example.com".data), (scheduleKey, "09:00:17:30:1-5".data)]⟩

/-- Configuration whose default `TZ` does not resolve. -/
def cfgBadTz : Config := ⟨[], "Not/AZone".data, 12⟩

/-- Claim C1, counterexample: a running, owned, non-protected instance
whose schedule tag is malformed and whose explicitly declared zone is
unresolvable is classified `MALFORMED`, not `INVALID_ZONE` — the malformed
check runs before the zone check. -/
theorem spec_C1_counterexample :
    instance_is_running instMalformedBadZone = true
    ∧ get_instance_owner instMalformedBadZone ≠ noOwner
    ∧ get_instance_owner instMalformedBadZone ∉ cfg0.protected_owners
    ∧ get_tag instMalformedBadZone scheduleTzKey ≠ []
    ∧ zdb0 (get_running_schedule_tz cfg0 instMalformedBadZone) = none
    ∧ parse_schedule (get_running_schedule instMalformedBadZone) = .fail
    ∧ do_power_control cfg0 zdb0 0 instMalformedBadZone = .ok .MALFORMED := by
  refine ⟨rfl, by decide, by decide, by decide, ?_, by decide, ?_⟩ <;> rfl

/-- Claim C1 as amended: for a running, owned, non-protected instance,
`INVALID_ZONE` is returned when the schedule tag parses and the declared
zone is unresolvable; when the raw tag is also malformed, the `MALFORMED`
check fires first, so the zone check only applies to well-formed
schedules. -/
theorem spec_C1_amended (cfg : Config) (zdb : ZoneDb) (now : Nat) (inst : Instance)
    (sched : Schedule)
    (hrun : instance_is_running inst = true)
    (howner : get_instance_owner inst ≠ noOwner)
    (hprot : get_instance_owner inst ∉ cfg.protected_owners)
    (hparse : parse_schedule (get_running_schedule inst) = .ok sched)
    (hzone : zdb (get_running_schedule_tz cfg inst) = none) :
    do_power_control cfg zdb now inst = .ok .INVALID_ZONE := by
  simp only [do_power_control, hrun, hparse, hzone]
  simp [howner, hprot]

/-- Claim C1, witness for the amended theorem: valid schedule, declared
zone unresolvable. -/
theorem spec_C1_witness :
    do_power_control cfg0 zdb0 0 instValidSchedBadZone = .ok .INVALID_ZONE :=
  spec_C1_amended cfg0 zdb0 0 instValidSchedBadZone
    ⟨⟨9, 0, 0, 0, none⟩, ⟨17, 30, 0, 0, none⟩, 1, 5⟩
    rfl (by decide) (by decide) (by decide) rfl

/-- Claim C2, counterexample: when the configured default zone itself does
not resolve, an instance with no schedule-timezone tag is classified
`INVALID_ZONE` even though no zone was explicitly given. -/
theorem spec_C2_counterexample :
    get_tag instGood scheduleTzKey = []
    ∧ do_power_control cfgBadTz zdb0 0 instGood = .ok .INVALID_ZONE := by
  refine ⟨rfl, ?_⟩
  rfl

/-- Claim C2 as amended: provided the configured default zone resolves, an
instance with no explicit schedule-timezone tag is never classified
`INVALID_ZONE`: the default is silently substituted and resolves. -/
theorem spec_C2_amended (cfg : Config) (zdb : ZoneDb) (now : Nat) (inst : Instance)
    (hdef : (zdb cfg.tz).isSome) (htag : get_tag inst scheduleTzKey = []) :
    do_power_control cfg zdb now inst ≠ .ok .INVALID_ZONE := by
  have htz : get_running_schedule_tz cfg inst = cfg.tz := by
    unfold get_running_schedule_tz
    rw [htag]
    simp
  rcases Option.isSome_iff_exists.mp hdef with ⟨z, hz⟩
  intro hcontra
  simp only [do_power_control, htz, hz] at hcontra
  repeat' split at hcontra
  all_goals simp_all

/-- Claim C2, witness for the amended theorem: resolvable default zone, no
zone tag, valid schedule. -/
theorem spec_C2_witness :
    do_power_control cfg0 zdb0 0 instGood ≠ .ok .INVALID_ZONE :=
  spec_C2_amended cfg0 zdb0 0 instGood (by rfl) rfl

theorem pyTimeCmp_naive (a b : PyTime) (ha : a.tzOffsetUs = none)
    (hb : b.tzOffsetUs = none) :
    pyTimeCmp a b = .ok (compare a.keyUs b.keyUs) := by
  unfold pyTimeCmp
  rw [ha, hb]

theorem pyTimeCmp_ok_naive_left (a b : PyTime) (o : Ordering)
    (h : pyTimeCmp a b = .ok o) (ha : a.tzOffsetUs = none) :
    b.tzOffsetUs = none := by
  unfold pyTimeCmp at h
  rw [ha] at h
  cases hb : b.tzOffsetUs with
  | none => rfl
  | some x => rw [hb] at h; exact Except.noConfusion h

theorem pyTimeCmp_ok_naive_right (a b : PyTime) (o : Ordering)
    (h : pyTimeCmp a b = .ok o) (hb : b.tzOffsetUs = none) :
    a.tzOffsetUs = none := by
  unfold pyTimeCmp at h
  rw [hb] at h
  cases ha : a.tzOffsetUs with
  | none => rfl
  | some x => rw [ha] at h; exact Except.noConfusion h

/-- Claim C6: for a running, owned, non-protected instance with a parsed
schedule and a resolvable zone, with the local weekday inside
`[first_day, last_day]`: a local wall-clock time equal to `start_time` or
`stop_time` is classified `ALLOWED` (boundaries inclusive), while a local
time strictly before `start_time` or strictly after `stop_time` is
classified `TIME_MISMATCH`. -/
theorem spec_C6_boundaries (cfg : Config) (zdb : ZoneDb) (now : Nat) (inst : Instance)
    (sched : Schedule) (z : Zone)
    (hrun : instance_is_running inst = true)
    (howner : get_instance_owner inst ≠ noOwner)
    (hprot : get_instance_owner inst ∉ cfg.protected_owners)
    (hparse : parse_schedule (get_running_schedule inst) = .ok sched)
    (hz : zdb (get_running_schedule_tz cfg inst) = some z)
    (hday1 : sched.first_day ≤ (z now).isoweekday)
    (hday2 : (z now).isoweekday ≤ sched.last_day) :
    ((⟨(z now).hour, (z now).minute, (z now).second, (z now).microsecond, none⟩ : PyTime)
        = sched.start_time
      ∨ (⟨(z now).hour, (z now).minute, (z now).second, (z now).microsecond, none⟩ : PyTime)
        = sched.stop_time
      → do_power_control cfg zdb now inst = .ok .ALLOWED)
    ∧ (pyTimeCmp ⟨(z now).hour, (z now).minute, (z now).second, (z now).microsecond, none⟩
        sched.start_time = .ok .lt
      → do_power_control cfg zdb now inst = .ok .TIME_MISMATCH)
    ∧ (pyTimeCmp ⟨(z now).hour, (z now).minute, (z now).second, (z now).microsecond, none⟩
        sched.stop_time = .ok .gt
      → do_power_control cfg zdb now inst = .ok .TIME_MISMATCH) := by
  have hinv := parse_schedule_ok_inv _ sched hparse
  have hdaycond : ¬((z now).isoweekday < sched.first_day
      ∨ (z now).isoweekday > sched.last_day) := by
    push_neg
    exact ⟨hday1, hday2⟩
  have hred : do_power_control cfg zdb now inst =
      (match pyTimeCmp
          ⟨(z now).hour, (z now).minute, (z now).second, (z now).microsecond, none⟩
          sched.start_time with
       | .error _ => .error ()
       | .ok o1 =>
         if o1 = .lt then .ok .TIME_MISMATCH
         else
           match pyTimeCmp
              ⟨(z now).hour, (z now).minute, (z now).second, (z now).microsecond, none⟩
              sched.stop_time with
           | .error _ => .error ()
           | .ok o2 => if o2 = .gt then .ok .TIME_MISMATCH else .ok .ALLOWED) := by
    simp only [do_power_control, hrun, hparse, hz]
    simp [howner, hprot, hdaycond]
  refine ⟨?_, ?_, ?_⟩
  · intro hor
    rcases hor with heq | heq
    · have hstart_tz : sched.start_time.tzOffsetUs = none := by rw [← heq]
      have hstop_tz : sched.stop_time.tzOffsetUs = none :=
        pyTimeCmp_ok_naive_left _ _ _ hinv.1 hstart_tz
      have hself : pyTimeCmp sched.start_time sched.start_time = .ok .eq := by
        rw [pyTimeCmp_naive _ _ hstart_tz hstart_tz, compare_eq_iff_eq.mpr rfl]
      rw [hred, heq, hself, hinv.1]
      rfl
    · have hstop_tz : sched.stop_time.tzOffsetUs = none := by rw [← heq]
      have hstart_tz : sched.start_time.tzOffsetUs = none :=
        pyTimeCmp_ok_naive_right _ _ _ hinv.1 hstop_tz
      have hkey : sched.start_time.keyUs < sched.stop_time.keyUs := by
        have := hinv.1
        rw [pyTimeCmp_naive _ _ hstart_tz hstop_tz] at this
        exact compare_lt_iff_lt.mp (Except.ok.inj this)
      have hcmp1 : pyTimeCmp sched.stop_time sched.start_time = .ok .gt := by
        rw [pyTimeCmp_naive _ _ hstop_tz hstart_tz]
        rw [compare_gt_iff_gt.mpr hkey]
      have hcmp2 : pyTimeCmp sched.stop_time sched.stop_time = .ok .eq := by
        rw [pyTimeCmp_naive _ _ hstop_tz hstop_tz, compare_eq_iff_eq.mpr rfl]
      rw [hred, heq, hcmp1, hcmp2]
      rfl
  · intro hlt
    rw [hred, hlt]
    rfl
  · intro hgt
    have hct_tz : (⟨(z now).hour, (z now).minute, (z now).second, (z now).microsecond,
        none⟩ : PyTime).tzOffsetUs = none := rfl
    have hstop_tz : sched.stop_time.tzOffsetUs = none :=
      pyTimeCmp_ok_naive_left _ _ _ hgt hct_tz
    have hstart_tz : sched.start_time.tzOffsetUs = none :=
      pyTimeCmp_ok_naive_right _ _ _ hinv.1 hstop_tz
    have hkey1 : sched.start_time.keyUs < sched.stop_time.keyUs := by
      have := hinv.1
      rw [pyTimeCmp_naive _ _ hstart_tz hstop_tz] at this
      exact compare_lt_iff_lt.mp (Except.ok.inj this)
    have hkey2 : sched.stop_time.keyUs <
        (⟨(z now).hour, (z now).minute, (z now).second, (z now).microsecond,
          none⟩ : PyTime).keyUs := by
      have := hgt
      rw [pyTimeCmp_naive _ _ hct_tz hstop_tz] at this
      exact compare_gt_iff_gt.mp (Except.ok.inj this)
    have hcmp1 : pyTimeCmp
        ⟨(z now).hour, (z now).minute, (z now).second, (z now).microsecond, none⟩
        sched.start_time = .ok .gt := by
      rw [pyTimeCmp_naive _ _ hct_tz hstart_tz]
      rw [compare_gt_iff_gt.mpr (lt_trans hkey1 hkey2)]
    rw [hred, hcmp1, hgt]
    rfl

/-- Claim C6, witness: with the sample zone, the run instants 540, 1050,
539 and 1051 minutes land exactly on `09:00`, exactly on `17:30`, one
minute before start, and one minute after stop. -/
theorem spec_C6_witness :
    do_power_control cfg0 zdb0 540 instGood = .ok .ALLOWED
    ∧ do_power_control cfg0 zdb0 1050 instGood = .ok .ALLOWED
    ∧ do_power_control cfg0 zdb0 539 instGood = .ok .TIME_MISMATCH
    ∧ do_power_control cfg0 zdb0 1051 instGood = .ok .TIME_MISMATCH :=
  ⟨(spec_C6_boundaries cfg0 zdb0 540 instGood
      ⟨⟨9, 0, 0, 0, none⟩, ⟨17, 30, 0, 0, none⟩, 1, 5⟩ zone0
      rfl (by decide) (by decide) (by decide) rfl (by decide) (by decide)).1
      (Or.inl (by decide)),
   (spec_C6_boundaries cfg0 zdb0 1050 instGood
      ⟨⟨9, 0, 0, 0, none⟩, ⟨17, 30, 0, 0, none⟩, 1, 5⟩ zone0
      rfl (by decide) (by decide) (by decide) rfl (by decide) (by decide)).1
      (Or.inr (by decide)),
   (spec_C6_boundaries cfg0 zdb0 539 instGood
      ⟨⟨9, 0, 0, 0, none⟩, ⟨17, 30, 0, 0, none⟩, 1, 5⟩ zone0
      rfl (by decide) (by decide) (by decide) rfl (by decide) (by decide)).2.1
      rfl,
   (spec_C6_boundaries cfg0 zdb0 1051 instGood
      ⟨⟨9, 0, 0, 0, none⟩, ⟨17, 30, 0, 0, none⟩, 1, 5⟩ zone0
      rfl (by decide) (by decide) (by decide) rfl (by decide) (by decide)).2.2
      rfl⟩

/-!
The schedule grammar refinement: strings matching the spec grammar of
section 4.1 are accepted by `parse_schedule` with the same result.
-/

theorem isPyDigit_bounds (c : Char) (h : isPyDigit c = true) :
    48 ≤ c.toNat ∧ c.toNat ≤ 57 := by
  simpa [isPyDigit] using h

theorem digit_ne (c : Char) (h : isPyDigit c = true) (d : Char)
    (hd : d.toNat < 48 ∨ 57 < d.toNat) : c ≠ d := by
  intro he
  rcases isPyDigit_bounds c h with ⟨h1, h2⟩
  subst he
  omega

theorem digit_not_ws (c : Char) (h : isPyDigit c = true) : isPyWs c = false := by
  simp [isPyWs, digit_ne c h ' ' (by left; decide),
    digit_ne c h (Char.ofNat 9) (by left; decide),
    digit_ne c h (Char.ofNat 10) (by left; decide),
    digit_ne c h (Char.ofNat 13) (by left; decide),
    digit_ne c h (Char.ofNat 11) (by left; decide),
    digit_ne c h (Char.ofNat 12) (by left; decide)]

theorem dropWhile_eq_self_of_no_ws (l : PyStr) (h : ∀ c ∈ l, isPyWs c = false) :
    l.dropWhile isPyWs = l := by
  cases l with
  | nil => rfl
  | cons a r => simp [List.dropWhile_cons, h a (List.mem_cons_self a r)]

theorem pyStrip_of_no_ws (s : PyStr) (h : ∀ c ∈ s, isPyWs c = false) : pyStrip s = s := by
  unfold pyStrip
  rw [dropWhile_eq_self_of_no_ws s h,
    dropWhile_eq_self_of_no_ws s.reverse fun c hc => h c (List.mem_reverse.mp hc),
    List.reverse_reverse]

theorem pyDigitsUnderscore_digits (l : List Char) (h : ∀ c ∈ l, isPyDigit c = true) :
    ∀ acc : Nat, pyDigitsUnderscore acc l
      = some (l.foldl (fun a c => a * 10 + digitVal c) acc) := by
  induction l with
  | nil => intro acc; rfl
  | cons c r ih =>
    intro acc
    have hc := h c (List.mem_cons_self c r)
    have hne : c ≠ '_' := digit_ne c hc '_' (by right; decide)
    conv_lhs => rw [pyDigitsUnderscore.eq_def]
    simp only []
    rw [if_neg hne, if_pos hc, List.foldl_cons]
    exact ih (fun x hx => h x (List.mem_cons_of_mem c hx)) _

theorem pyInt_digits (s : PyStr) (h : isDigitTok s = true) :
    pyInt s = some ((digitTokVal s : Nat) : Int) := by
  rcases s with _ | ⟨c0, r⟩
  · simp [isDigitTok] at h
  · have hall : ∀ c ∈ c0 :: r, isPyDigit c = true := by
      simp only [isDigitTok, Bool.and_eq_true, List.all_eq_true] at h
      exact h.2
    have hc0 := hall c0 (List.mem_cons_self c0 r)
    have hstrip : pyStrip (c0 :: r) = c0 :: r :=
      pyStrip_of_no_ws _ fun c hc => digit_not_ws c (hall c hc)
    have hplus : c0 ≠ '+' := digit_ne c0 hc0 '+' (by left; decide)
    have hminus : c0 ≠ '-' := digit_ne c0 hc0 '-' (by left; decide)
    simp only [pyInt, hstrip]
    rw [if_neg hplus, if_neg hminus]
    simp only [pyDigitGroup, if_pos hc0]
    rw [pyDigitsUnderscore_digits r (fun x hx => hall x (List.mem_cons_of_mem c0 hx))]
    simp [digitTokVal, List.foldl_cons]


theorem digit_not_sign (c : Char) (h : isPyDigit c = true) : isSignChar c = false := by
  have hz : c ≠ 'Z' := digit_ne c h 'Z' (by right; decide)
  have hp : c ≠ '+' := digit_ne c h '+' (by left; decide)
  have hm : c ≠ '-' := digit_ne c h '-' (by left; decide)
  simp [isSignChar, hz, hp, hm]

theorem timeFromIso_2digit (a b c d : Char)
    (ha : isPyDigit a = true) (hb : isPyDigit b = true)
    (hc : isPyDigit c = true) (hd : isPyDigit d = true)
    (hh : digitVal a * 10 + digitVal b ≤ 23)
    (hm : digitVal c * 10 + digitVal d ≤ 59) :
    timeFromIsoformat [a, b, ':', c, d]
      = some ⟨digitVal a * 10 + digitVal b, digitVal c * 10 + digitVal d, 0, 0, none⟩ := by
  have haT : charAt [a, b, ':', c, d] 0 ≠ 'T' := by
    show a ≠ 'T'
    exact digit_ne a ha 'T' (by right; decide)
  have sa := digit_not_sign a ha
  have sb := digit_not_sign b hb
  have sc := digit_not_sign c hc
  have sd := digit_not_sign d hd
  have hscan : scanSign [a, b, ':', c, d] = 5 := by
    simp [scanSign, scanSignAux, sa, sb, sc, sd,
      (by decide : isSignChar ':' = false)]
  have hparse : parseHMSF [a, b, ':', c, d] 5 0
      = .out false (digitVal a * 10 + digitVal b) (digitVal c * 10 + digitVal d) 0 0 := by
    simp [parseHMSF, hmsfLoop, parseDigits, charAt, ha, hb, hc, hd, nulChar]
  simp only [timeFromIsoformat, if_neg haT]
  simp only [parseIsoformatTime]
  rw [hscan, hparse]
  simp [hh, hm]

theorem isDigit2_elim (t : PyStr) (h : isDigit2 t = true) :
    ∃ a b, t = [a, b] ∧ isPyDigit a = true ∧ isPyDigit b = true := by
  rcases t with _ | ⟨a, _ | ⟨b, _ | ⟨x, r⟩⟩⟩
  · simp [isDigit2] at h
  · simp [isDigit2] at h
  · simp only [isDigit2, Bool.and_eq_true] at h
    exact ⟨a, b, rfl, h.1, h.2⟩
  · simp [isDigit2] at h

theorem specParse_imp_parse (s : PyStr) (sched : Schedule)
    (h : specParseSchedule s = some sched) : parse_schedule s = .ok sched := by
  simp only [specParseSchedule] at h
  split at h
  rotate_left
  · exact Option.noConfusion h
  rename_i t0 t1 t2 t3 t4 hsplit
  split at h
  rotate_left
  · exact Option.noConfusion h
  rename_i hd
  split at h
  rotate_left
  · exact Option.noConfusion h
  rename_i hr
  split at h
  rotate_left
  · exact Option.noConfusion h
  rename_i d1 d2 hdsplit
  split at h
  rotate_left
  · exact Option.noConfusion h
  rename_i hdt
  split at h
  rotate_left
  · exact Option.noConfusion h
  rename_i hdr
  have hsched := Option.some.inj h
  simp only [Bool.and_eq_true] at hd hdt
  simp only [Bool.and_eq_true, decide_eq_true_eq] at hr hdr
  obtain ⟨a0, a1, rfl, h00, h01⟩ := isDigit2_elim t0 hd.1.1.1
  obtain ⟨a2, a3, rfl, h10, h11⟩ := isDigit2_elim t1 hd.1.1.2
  obtain ⟨a4, a5, rfl, h20, h21⟩ := isDigit2_elim t2 hd.1.2
  obtain ⟨a6, a7, rfl, h30, h31⟩ := isDigit2_elim t3 hd.2
  simp only [digit2Val] at hr hsched
  simp only [parse_schedule]
  rw [hsplit]
  simp only [List.length_cons, List.length_nil, List.getD_cons_zero, List.getD_cons_succ,
    List.cons_append, List.nil_append]
  rw [if_neg (by omega)]
  rw [timeFromIso_2digit a0 a1 a2 a3 h00 h01 h10 h11 hr.1.1.1.1 hr.1.1.1.2,
    timeFromIso_2digit a4 a5 a6 a7 h20 h21 h30 h31 hr.1.1.2 hr.1.2]
  simp only []
  rw [pyTimeCmp_naive _ _ rfl rfl]
  have hklt : (PyTime.mk (digitVal a0 * 10 + digitVal a1) (digitVal a2 * 10 + digitVal a3)
        0 0 none).keyUs
      < (PyTime.mk (digitVal a4 * 10 + digitVal a5) (digitVal a6 * 10 + digitVal a7)
        0 0 none).keyUs := by
    have := hr.2
    simp only [PyTime.keyUs]
    omega
  rw [compare_lt_iff_lt.mpr hklt]
  simp only []
  rw [if_neg (by simp)]
  rw [hdsplit]
  simp only [List.length_cons, List.length_nil]
  rw [if_neg (by omega)]
  simp only [List.getD_cons_zero, List.getD_cons_succ]
  rw [pyInt_digits d1 hdt.1, pyInt_digits d2 hdt.2]
  simp only []
  rw [if_neg (by
    have h1 := hdr.1.2
    omega)]
  rw [if_neg (by
    have h1 := hdr.1.1
    have h2 := hdr.1.2
    have h3 := hdr.2
    push_neg
    refine ⟨by omega, by omega, by omega, by omega⟩)]
  exact congrArg ParseResult.ok hsched

/-- Claim C4 as amended: every string that does not split on `:` into
exactly five fields fails to parse, and every string matching the strict
spec grammar (numeric `HH:MM:HH:MM:D-D` with all semantic checks) parses to
the corresponding schedule; however, the time fields are parsed with
Python ISO-8601 time parsing, which also accepts forms outside the strict
grammar (such as a leading `T` on the hour field), so not every string
with non-numeric time components fails. -/
theorem spec_C4_amended (s : PyStr) :
    ((pySplitOn ':' s).length ≠ 5 → parse_schedule s = .fail)
    ∧ ∀ sched : Schedule, specParseSchedule s = some sched → parse_schedule s = .ok sched := by
  constructor
  · intro h
    simp only [parse_schedule]
    rw [if_pos h]
  · intro sched h
    exact specParse_imp_parse s sched h

/-- Claim C4, counterexample: `T09:00:17:30:1-5` does not match the
five-field grammar (its first time component is not numeric), yet
`parse_schedule` accepts it, because Python's ISO time parser strips a
leading `T`. -/
theorem spec_C4_counterexample :
    specParseSchedule "T09:00:17:30:1-5".data = none
    ∧ parse_schedule "T09:00:17:30:1-5".data
      = .ok ⟨⟨9, 0, 0, 0, none⟩, ⟨17, 30, 0, 0, none⟩, 1, 5⟩ :=
  ⟨by decide, by decide⟩

/-- Claim C4, witness for the amended theorem at concrete inputs. -/
theorem spec_C4_witness :
    parse_schedule "bad:str".data = .fail
    ∧ parse_schedule "09:00:17:30:1-5".data
      = .ok ⟨⟨9, 0, 0, 0, none⟩, ⟨17, 30, 0, 0, none⟩, 1, 5⟩ :=
  ⟨(spec_C4_amended "bad:str".data).1 (by decide),
   (spec_C4_amended "09:00:17:30:1-5".data).2 _ (by decide)⟩

/-!
Persisted-state round trip (claim C10).
-/

theorem digitChar_isPyDigit (k : Nat) (h : k < 10) :
    isPyDigit (Nat.digitChar k) = true := by
  interval_cases k <;> decide

theorem digitChar_val (k : Nat) (h : k < 10) : digitVal (Nat.digitChar k) = k := by
  interval_cases k <;> decide

theorem parseIsoTime_fmt0 (h mi s : Nat) (hh : h ≤ 23) (hm : mi ≤ 59) (hs : s ≤ 59) :
    parseIsoformatTime
      [Nat.digitChar (h / 10), Nat.digitChar (h % 10), ':',
       Nat.digitChar (mi / 10), Nat.digitChar (mi % 10), ':',
       Nat.digitChar (s / 10), Nat.digitChar (s % 10), '+', '0', '0', ':', '0', '0']
      = some ⟨h, mi, s, 0, some 0⟩ := by
  have f1 := digitChar_isPyDigit (h / 10) (by omega)
  have f2 := digitChar_isPyDigit (h % 10) (by omega)
  have f3 := digitChar_isPyDigit (mi / 10) (by omega)
  have f4 := digitChar_isPyDigit (mi % 10) (by omega)
  have f5 := digitChar_isPyDigit (s / 10) (by omega)
  have f6 := digitChar_isPyDigit (s % 10) (by omega)
  have v1 := digitChar_val (h / 10) (by omega)
  have v2 := digitChar_val (h % 10) (by omega)
  have v3 := digitChar_val (mi / 10) (by omega)
  have v4 := digitChar_val (mi % 10) (by omega)
  have v5 := digitChar_val (s / 10) (by omega)
  have v6 := digitChar_val (s % 10) (by omega)
  have hscan : scanSign
      [Nat.digitChar (h / 10), Nat.digitChar (h % 10), ':',
       Nat.digitChar (mi / 10), Nat.digitChar (mi % 10), ':',
       Nat.digitChar (s / 10), Nat.digitChar (s % 10), '+', '0', '0', ':', '0', '0']
      = 8 := by
    simp [scanSign, scanSignAux, digit_not_sign _ f1, digit_not_sign _ f2,
      digit_not_sign _ f3, digit_not_sign _ f4, digit_not_sign _ f5, digit_not_sign _ f6,
      (by decide : isSignChar ':' = false), (by decide : isSignChar '+' = true)]
  have hparse1 : parseHMSF
      [Nat.digitChar (h / 10), Nat.digitChar (h % 10), ':',
       Nat.digitChar (mi / 10), Nat.digitChar (mi % 10), ':',
       Nat.digitChar (s / 10), Nat.digitChar (s % 10), '+', '0', '0', ':', '0', '0']
      8 0 = .out true h mi s 0 := by
    simp +decide [parseHMSF, hmsfLoop, parseDigits, charAt, f1, f2, f3, f4, f5, f6,
      v1, v2, v3, v4, v5, v6, nulChar]
    omega
  have hparse2 : parseHMSF
      [Nat.digitChar (h / 10), Nat.digitChar (h % 10), ':',
       Nat.digitChar (mi / 10), Nat.digitChar (mi % 10), ':',
       Nat.digitChar (s / 10), Nat.digitChar (s % 10), '+', '0', '0', ':', '0', '0']
      14 9 = .out false 0 0 0 0 := by
    have c9 : charAt
        [Nat.digitChar (h / 10), Nat.digitChar (h % 10), ':',
         Nat.digitChar (mi / 10), Nat.digitChar (mi % 10), ':',
         Nat.digitChar (s / 10), Nat.digitChar (s % 10), '+', '0', '0', ':', '0', '0']
        9 = '0' := rfl
    have c10 : charAt
        [Nat.digitChar (h / 10), Nat.digitChar (h % 10), ':',
         Nat.digitChar (mi / 10), Nat.digitChar (mi % 10), ':',
         Nat.digitChar (s / 10), Nat.digitChar (s % 10), '+', '0', '0', ':', '0', '0']
        10 = '0' := rfl
    have c11 : charAt
        [Nat.digitChar (h / 10), Nat.digitChar (h % 10), ':',
         Nat.digitChar (mi / 10), Nat.digitChar (mi % 10), ':',
         Nat.digitChar (s / 10), Nat.digitChar (s % 10), '+', '0', '0', ':', '0', '0']
        11 = ':' := rfl
    have c12 : charAt
        [Nat.digitChar (h / 10), Nat.digitChar (h % 10), ':',
         Nat.digitChar (mi / 10), Nat.digitChar (mi % 10), ':',
         Nat.digitChar (s / 10), Nat.digitChar (s % 10), '+', '0', '0', ':', '0', '0']
        12 = '0' := rfl
    have c13 : charAt
        [Nat.digitChar (h / 10), Nat.digitChar (h % 10), ':',
         Nat.digitChar (mi / 10), Nat.digitChar (mi % 10), ':',
         Nat.digitChar (s / 10), Nat.digitChar (s % 10), '+', '0', '0', ':', '0', '0']
        13 = '0' := rfl
    have c14 : charAt
        [Nat.digitChar (h / 10), Nat.digitChar (h % 10), ':',
         Nat.digitChar (mi / 10), Nat.digitChar (mi % 10), ':',
         Nat.digitChar (s / 10), Nat.digitChar (s % 10), '+', '0', '0', ':', '0', '0']
        14 = nulChar := rfl
    simp +decide [parseHMSF, hmsfLoop, parseDigits, c9, c10, c11, c12, c13, c14, nulChar]
  have c8 : charAt
      [Nat.digitChar (h / 10), Nat.digitChar (h % 10), ':',
       Nat.digitChar (mi / 10), Nat.digitChar (mi % 10), ':',
       Nat.digitChar (s / 10), Nat.digitChar (s % 10), '+', '0', '0', ':', '0', '0']
      8 = '+' := rfl
  simp only [parseIsoformatTime]
  rw [hscan, hparse1, c8]
  simp only [List.length_cons, List.length_nil]
  rw [if_neg (show ¬(8 = 13 + 1) by decide), if_neg (show ¬('+' = 'Z') by decide),
    if_neg (show ¬('+' = '-') by decide), hparse2]
  simp

theorem parseIsoTime_fmt6 (h mi s us : Nat) (hh : h ≤ 23) (hm : mi ≤ 59) (hs : s ≤ 59)
    (hu : us ≤ 999999) :
    parseIsoformatTime
      [Nat.digitChar (h / 10), Nat.digitChar (h % 10), ':',
       Nat.digitChar (mi / 10), Nat.digitChar (mi % 10), ':',
       Nat.digitChar (s / 10), Nat.digitChar (s % 10), '.',
       Nat.digitChar (us / 100000), Nat.digitChar (us / 10000 % 10),
       Nat.digitChar (us / 1000 % 10), Nat.digitChar (us / 100 % 10),
       Nat.digitChar (us / 10 % 10), Nat.digitChar (us % 10),
       '+', '0', '0', ':', '0', '0']
      = some ⟨h, mi, s, us, some 0⟩ := by
  have f1 := digitChar_isPyDigit (h / 10) (by omega)
  have f2 := digitChar_isPyDigit (h % 10) (by omega)
  have f3 := digitChar_isPyDigit (mi / 10) (by omega)
  have f4 := digitChar_isPyDigit (mi % 10) (by omega)
  have f5 := digitChar_isPyDigit (s / 10) (by omega)
  have f6 := digitChar_isPyDigit (s % 10) (by omega)
  have u1 := digitChar_isPyDigit (us / 100000) (by omega)
  have u2 := digitChar_isPyDigit (us / 10000 % 10) (by omega)
  have u3 := digitChar_isPyDigit (us / 1000 % 10) (by omega)
  have u4 := digitChar_isPyDigit (us / 100 % 10) (by omega)
  have u5 := digitChar_isPyDigit (us / 10 % 10) (by omega)
  have u6 := digitChar_isPyDigit (us % 10) (by omega)
  have v1 := digitChar_val (h / 10) (by omega)
  have v2 := digitChar_val (h % 10) (by omega)
  have v3 := digitChar_val (mi / 10) (by omega)
  have v4 := digitChar_val (mi % 10) (by omega)
  have v5 := digitChar_val (s / 10) (by omega)
  have v6 := digitChar_val (s % 10) (by omega)
  have w1 := digitChar_val (us / 100000) (by omega)
  have w2 := digitChar_val (us / 10000 % 10) (by omega)
  have w3 := digitChar_val (us / 1000 % 10) (by omega)
  have w4 := digitChar_val (us / 100 % 10) (by omega)
  have w5 := digitChar_val (us / 10 % 10) (by omega)
  have w6 := digitChar_val (us % 10) (by omega)
  have hscan : scanSign
      [Nat.digitChar (h / 10), Nat.digitChar (h % 10), ':',
       Nat.digitChar (mi / 10), Nat.digitChar (mi % 10), ':',
       Nat.digitChar (s / 10), Nat.digitChar (s % 10), '.',
       Nat.digitChar (us / 100000), Nat.digitChar (us / 10000 % 10),
       Nat.digitChar (us / 1000 % 10), Nat.digitChar (us / 100 % 10),
       Nat.digitChar (us / 10 % 10), Nat.digitChar (us % 10),
       '+', '0', '0', ':', '0', '0'] = 15 := by
    simp +decide [scanSign, scanSignAux, digit_not_sign _ f1, digit_not_sign _ f2,
      digit_not_sign _ f3, digit_not_sign _ f4, digit_not_sign _ f5, digit_not_sign _ f6,
      digit_not_sign _ u1, digit_not_sign _ u2, digit_not_sign _ u3, digit_not_sign _ u4,
      digit_not_sign _ u5, digit_not_sign _ u6]
  have hparse1 : parseHMSF
      [Nat.digitChar (h / 10), Nat.digitChar (h % 10), ':',
       Nat.digitChar (mi / 10), Nat.digitChar (mi % 10), ':',
       Nat.digitChar (s / 10), Nat.digitChar (s % 10), '.',
       Nat.digitChar (us / 100000), Nat.digitChar (us / 10000 % 10),
       Nat.digitChar (us / 1000 % 10), Nat.digitChar (us / 100 % 10),
       Nat.digitChar (us / 10 % 10), Nat.digitChar (us % 10),
       '+', '0', '0', ':', '0', '0'] 15 0 = .out false h mi s us := by
    simp +decide [parseHMSF, hmsfLoop, hmsfFrac, parseDigits, charAt,
      f1, f2, f3, f4, f5, f6, u1, u2, u3, u4, u5, u6,
      v1, v2, v3, v4, v5, v6, w1, w2, w3, w4, w5, w6, nulChar, usCorrection]
    omega
  have hparse2 : parseHMSF
      [Nat.digitChar (h / 10), Nat.digitChar (h % 10), ':',
       Nat.digitChar (mi / 10), Nat.digitChar (mi % 10), ':',
       Nat.digitChar (s / 10), Nat.digitChar (s % 10), '.',
       Nat.digitChar (us / 100000), Nat.digitChar (us / 10000 % 10),
       Nat.digitChar (us / 1000 % 10), Nat.digitChar (us / 100 % 10),
       Nat.digitChar (us / 10 % 10), Nat.digitChar (us % 10),
       '+', '0', '0', ':', '0', '0'] 21 16 = .out false 0 0 0 0 := by
    have c16 : charAt
        [Nat.digitChar (h / 10), Nat.digitChar (h % 10), ':',
         Nat.digitChar (mi / 10), Nat.digitChar (mi % 10), ':',
         Nat.digitChar (s / 10), Nat.digitChar (s % 10), '.',
         Nat.digitChar (us / 100000), Nat.digitChar (us / 10000 % 10),
         Nat.digitChar (us / 1000 % 10), Nat.digitChar (us / 100 % 10),
         Nat.digitChar (us / 10 % 10), Nat.digitChar (us % 10),
         '+', '0', '0', ':', '0', '0'] 16 = '0' := rfl
    have c17 : charAt
        [Nat.digitChar (h / 10), Nat.digitChar (h % 10), ':',
         Nat.digitChar (mi / 10), Nat.digitChar (mi % 10), ':',
         Nat.digitChar (s / 10), Nat.digitChar (s % 10), '.',
         Nat.digitChar (us / 100000), Nat.digitChar (us / 10000 % 10),
         Nat.digitChar (us / 1000 % 10), Nat.digitChar (us / 100 % 10),
         Nat.digitChar (us / 10 % 10), Nat.digitChar (us % 10),
         '+', '0', '0', ':', '0', '0'] 17 = '0' := rfl
    have c18 : charAt
        [Nat.digitChar (h / 10), Nat.digitChar (h % 10), ':',
         Nat.digitChar (mi / 10), Nat.digitChar (mi % 10), ':',
         Nat.digitChar (s / 10), Nat.digitChar (s % 10), '.',
         Nat.digitChar (us / 100000), Nat.digitChar (us / 10000 % 10),
         Nat.digitChar (us / 1000 % 10), Nat.digitChar (us / 100 % 10),
         Nat.digitChar (us / 10 % 10), Nat.digitChar (us % 10),
         '+', '0', '0', ':', '0', '0'] 18 = ':' := rfl
    have c19 : charAt
        [Nat.digitChar (h / 10), Nat.digitChar (h % 10), ':',
         Nat.digitChar (mi / 10), Nat.digitChar (mi % 10), ':',
         Nat.digitChar (s / 10), Nat.digitChar (s % 10), '.',
         Nat.digitChar (us / 100000), Nat.digitChar (us / 10000 % 10),
         Nat.digitChar (us / 1000 % 10), Nat.digitChar (us / 100 % 10),
         Nat.digitChar (us / 10 % 10), Nat.digitChar (us % 10),
         '+', '0', '0', ':', '0', '0'] 19 = '0' := rfl
    have c20 : charAt
        [Nat.digitChar (h / 10), Nat.digitChar (h % 10), ':',
         Nat.digitChar (mi / 10), Nat.digitChar (mi % 10), ':',
         Nat.digitChar (s / 10), Nat.digitChar (s % 10), '.',
         Nat.digitChar (us / 100000), Nat.digitChar (us / 10000 % 10),
         Nat.digitChar (us / 1000 % 10), Nat.digitChar (us / 100 % 10),
         Nat.digitChar (us / 10 % 10), Nat.digitChar (us % 10),
         '+', '0', '0', ':', '0', '0'] 20 = '0' := rfl
    have c21 : charAt
        [Nat.digitChar (h / 10), Nat.digitChar (h % 10), ':',
         Nat.digitChar (mi / 10), Nat.digitChar (mi % 10), ':',
         Nat.digitChar (s / 10), Nat.digitChar (s % 10), '.',
         Nat.digitChar (us / 100000), Nat.digitChar (us / 10000 % 10),
         Nat.digitChar (us / 1000 % 10), Nat.digitChar (us / 100 % 10),
         Nat.digitChar (us / 10 % 10), Nat.digitChar (us % 10),
         '+', '0', '0', ':', '0', '0'] 21 = nulChar := rfl
    simp +decide [parseHMSF, hmsfLoop, parseDigits, c16, c17, c18, c19, c20, c21, nulChar]
  have c15 : charAt
      [Nat.digitChar (h / 10), Nat.digitChar (h % 10), ':',
       Nat.digitChar (mi / 10), Nat.digitChar (mi % 10), ':',
       Nat.digitChar (s / 10), Nat.digitChar (s % 10), '.',
       Nat.digitChar (us / 100000), Nat.digitChar (us / 10000 % 10),
       Nat.digitChar (us / 1000 % 10), Nat.digitChar (us / 100 % 10),
       Nat.digitChar (us / 10 % 10), Nat.digitChar (us % 10),
       '+', '0', '0', ':', '0', '0'] 15 = '+' := rfl
  simp only [parseIsoformatTime]
  rw [hscan, hparse1, c15]
  simp only [List.length_cons, List.length_nil]
  rw [if_neg (show ¬(15 = 20 + 1) by decide), if_neg (show ¬('+' = 'Z') by decide),
    if_neg (show ¬('+' = '-') by decide), hparse2]
  simp

theorem dtFromIso_isoformat (d : PyDateTime) (hv : validPyDateTime d)
    (htz : d.tzOffsetUs = some 0) : dtFromIso (dtIsoformat d) = some d := by
  obtain ⟨y, mo, dd, h, mi, s, us, tz⟩ := d
  simp only at htz
  subst htz
  simp only [validPyDateTime] at hv
  obtain ⟨hy1, hy2, hmo1, hmo2, hdd1, hdd2, hhh, hmm, hss, huu⟩ := hv
  have hdm : daysInMonth y mo ≤ 31 := by
    unfold daysInMonth
    split
    · split <;> omega
    · split <;> omega
  have hdd31 : dd ≤ 31 := le_trans hdd2 hdm
  have g1 := digitChar_isPyDigit (y / 1000) (by omega)
  have g2 := digitChar_isPyDigit (y / 100 % 10) (by omega)
  have g3 := digitChar_isPyDigit (y / 10 % 10) (by omega)
  have g4 := digitChar_isPyDigit (y % 10) (by omega)
  have g5 := digitChar_isPyDigit (mo / 10) (by omega)
  have g6 := digitChar_isPyDigit (mo % 10) (by omega)
  have g7 := digitChar_isPyDigit (dd / 10) (by omega)
  have g8 := digitChar_isPyDigit (dd % 10) (by omega)
  have hyv : ((digitVal (Nat.digitChar (y / 1000)) * 10
      + digitVal (Nat.digitChar (y / 100 % 10))) * 10
      + digitVal (Nat.digitChar (y / 10 % 10))) * 10
      + digitVal (Nat.digitChar (y % 10)) = y := by
    rw [digitChar_val (y / 1000) (by omega), digitChar_val (y / 100 % 10) (by omega),
      digitChar_val (y / 10 % 10) (by omega), digitChar_val (y % 10) (by omega)]
    omega
  have hmov : digitVal (Nat.digitChar (mo / 10)) * 10
      + digitVal (Nat.digitChar (mo % 10)) = mo := by
    rw [digitChar_val (mo / 10) (by omega), digitChar_val (mo % 10) (by omega)]
    omega
  have hddv : digitVal (Nat.digitChar (dd / 10)) * 10
      + digitVal (Nat.digitChar (dd % 10)) = dd := by
    rw [digitChar_val (dd / 10) (by omega), digitChar_val (dd % 10) (by omega)]
    omega
  by_cases hus : us = 0
  · subst hus
    have hfmt : dtIsoformat ⟨y, mo, dd, h, mi, s, 0, some 0⟩
        = [Nat.digitChar (y / 1000), Nat.digitChar (y / 100 % 10),
           Nat.digitChar (y / 10 % 10), Nat.digitChar (y % 10), '-',
           Nat.digitChar (mo / 10), Nat.digitChar (mo % 10), '-',
           Nat.digitChar (dd / 10), Nat.digitChar (dd % 10), 'T',
           Nat.digitChar (h / 10), Nat.digitChar (h % 10), ':',
           Nat.digitChar (mi / 10), Nat.digitChar (mi % 10), ':',
           Nat.digitChar (s / 10), Nat.digitChar (s % 10),
           '+', '0', '0', ':', '0', '0'] := by
      simp +decide [dtIsoformat, pad4, pad2, isoOffsetSuffix]
    rw [hfmt]
    simp only [dtFromIso]
    rw [parseIsoTime_fmt0 h mi s hhh hmm hss]
    simp only [g1, g2, g3, g4, g5, g6, g7, g8, hyv, hmov, hddv]
    simp +decide [validPyDateTime, dayUs, g1, g2, g3, g4, g5, g6, g7, g8, hyv, hmov, hddv,
      hy1, hy2, hmo1, hmo2, hdd1, hdd2, hhh, hmm, hss]
  · have hfmt : dtIsoformat ⟨y, mo, dd, h, mi, s, us, some 0⟩
        = [Nat.digitChar (y / 1000), Nat.digitChar (y / 100 % 10),
           Nat.digitChar (y / 10 % 10), Nat.digitChar (y % 10), '-',
           Nat.digitChar (mo / 10), Nat.digitChar (mo % 10), '-',
           Nat.digitChar (dd / 10), Nat.digitChar (dd % 10), 'T',
           Nat.digitChar (h / 10), Nat.digitChar (h % 10), ':',
           Nat.digitChar (mi / 10), Nat.digitChar (mi % 10), ':',
           Nat.digitChar (s / 10), Nat.digitChar (s % 10), '.',
           Nat.digitChar (us / 100000), Nat.digitChar (us / 10000 % 10),
           Nat.digitChar (us / 1000 % 10), Nat.digitChar (us / 100 % 10),
           Nat.digitChar (us / 10 % 10), Nat.digitChar (us % 10),
           '+', '0', '0', ':', '0', '0'] := by
      simp +decide [dtIsoformat, pad4, pad2, pad6, isoOffsetSuffix, hus]
    rw [hfmt]
    simp only [dtFromIso]
    rw [parseIsoTime_fmt6 h mi s us hhh hmm hss huu]
    simp only [g1, g2, g3, g4, g5, g6, g7, g8, hyv, hmov, hddv]
    simp +decide [validPyDateTime, dayUs, g1, g2, g3, g4, g5, g6, g7, g8, hyv, hmov, hddv,
      hy1, hy2, hmo1, hmo2, hdd1, hdd2, hhh, hmm, hss, huu]

theorem astimezoneUtc_utc (loc : Int) (d : PyDateTime) (hv : validPyDateTime d)
    (htz : d.tzOffsetUs = some 0) : astimezoneUtc loc d = some d := by
  obtain ⟨y, mo, dd, h, mi, s, us, tz⟩ := d
  simp only at htz
  subst htz
  simp only [validPyDateTime] at hv
  obtain ⟨hy1, hy2, hmo1, hmo2, hdd1, hdd2, hhh, hmm, hss, huu⟩ := hv
  have htod : (0:Int) ≤ todUs ⟨y, mo, dd, h, mi, s, us, some 0⟩
      ∧ todUs ⟨y, mo, dd, h, mi, s, us, some 0⟩ < dayUs := by
    simp only [todUs, dayUs]
    omega
  simp only [astimezoneUtc, Option.getD_some, sub_zero]
  rw [if_pos htod]
  simp only [withTod, todUs]
  have h1 : ((((h * 60 + mi) * 60 + s : Nat) * 1000000 + us : Int)).toNat
      = ((h * 60 + mi) * 60 + s) * 1000000 + us := by omega
  rw [h1]
  have e1 : (((h * 60 + mi) * 60 + s) * 1000000 + us) % 1000000 = us := by omega
  have e2 : (((h * 60 + mi) * 60 + s) * 1000000 + us) / 1000000 = (h * 60 + mi) * 60 + s := by
    omega
  have e3 : ((h * 60 + mi) * 60 + s) % 60 = s := by omega
  have e4 : ((h * 60 + mi) * 60 + s) / 60 = h * 60 + mi := by omega
  have e5 : (h * 60 + mi) / 60 = h := by omega
  have e6 : (h * 60 + mi) % 60 = mi := by omega
  rw [e1, e2, e3, e4, e5, e6]

/-- The value mapping of the notification-times setter: render the
datetime, keep the key. -/
def fmtEntry (e : PyStr × PyDateTime) : PyStr × PyStr := (e.1, dtIsoformat e.2)

theorem readEntries_map_fmt (loc : Int) (l : List (PyStr × PyDateTime))
    (hvals : ∀ e ∈ l, validPyDateTime e.2 ∧ e.2.tzOffsetUs = some 0) :
    readEntries loc (l.map fmtEntry) = .ok l := by
  induction l with
  | nil => rfl
  | cons e rest ih =>
    obtain ⟨k, v⟩ := e
    have hv := hvals (k, v) (List.mem_cons_self _ _)
    simp only [List.map_cons, fmtEntry, readEntries]
    rw [dtFromIso_isoformat v hv.1 hv.2]
    simp only []
    rw [astimezoneUtc_utc loc v hv.1 hv.2]
    simp only []
    rw [ih fun x hx => hvals x (List.mem_cons_of_mem _ hx)]

theorem orderedInsert_map_fmt (a : PyStr × PyDateTime) (l : List (PyStr × PyDateTime)) :
    List.orderedInsert entryLe (fmtEntry a) (l.map fmtEntry)
      = (List.orderedInsert entryLe a l).map fmtEntry := by
  induction l with
  | nil => rfl
  | cons b t ih =>
    by_cases hab : entryLe a b
    · have hab2 : entryLe (fmtEntry a) (fmtEntry b) := hab
      simp only [List.map_cons, List.orderedInsert, if_pos hab, if_pos hab2, List.map_cons]
    · have hab2 : ¬ entryLe (fmtEntry a) (fmtEntry b) := hab
      simp only [List.map_cons, List.orderedInsert, if_neg hab, if_neg hab2, List.map_cons, ih]

theorem insertionSort_map_fmt (l : List (PyStr × PyDateTime)) :
    List.insertionSort entryLe (l.map fmtEntry)
      = (List.insertionSort entryLe l).map fmtEntry := by
  induction l with
  | nil => rfl
  | cons a t ih =>
    simp only [List.map_cons, List.insertionSort, ih, orderedInsert_map_fmt]

theorem lookupStr_perm {α : Type} (l₁ l₂ : List (PyStr × α)) (hperm : l₁.Perm l₂)
    (hnd : keysNodup l₁) : ∀ k, lookupStr l₁ k = lookupStr l₂ k := by
  induction hperm with
  | nil => intro k; rfl
  | cons x hp ih =>
    intro k
    unfold keysNodup at hnd
    simp only [List.map_cons, List.nodup_cons] at hnd
    by_cases hk : x.1 = k
    · simp [lookupStr, hk]
    · simp only [lookupStr, if_neg hk]
      exact ih hnd.2 k
  | swap x y t =>
    intro k
    unfold keysNodup at hnd
    simp only [List.map_cons, List.nodup_cons, List.mem_cons] at hnd
    have hxy : ¬ y.1 = x.1 := fun hh => hnd.1 (Or.inl hh)
    have hyx : ¬ x.1 = y.1 := fun hh => hxy hh.symm
    by_cases hk1 : y.1 = k
    · subst hk1
      simp [lookupStr, hxy, hyx]
    · by_cases hk2 : x.1 = k
      · simp [lookupStr, hk1, hk2]
      · simp [lookupStr, hk1, hk2]
  | trans hp1 hp2 ih1 ih2 =>
    intro k
    rename_i l₁' l₂' l₃' 
    have hnd2 : keysNodup l₂' := by
      unfold keysNodup at hnd ⊢
      exact ((hp1.map Prod.fst).nodup_iff).mp hnd
    rw [ih1 hnd k, ih2 hnd2 k]

/-- Claim C10: persisting a mapping of UTC-aware timestamps through the
notification-times setter and loading it back through the getter is
lossless — the loaded mapping has the same keys, the same size, and every
timestamp denotes the same UTC instant. -/
theorem spec_C10_roundtrip (m : List (PyStr × PyDateTime)) (localOffUs : Int)
    (hkeys : keysNodup m)
    (hvals : ∀ e ∈ m, validPyDateTime e.2 ∧ e.2.tzOffsetUs = some 0) :
    ∃ m', loadNotificationTimes localOffUs (some (.ok (writeNotificationTimes m))) = .ok m'
      ∧ m'.length = m.length ∧ ∀ k, lookupStr m' k = lookupStr m k := by
  have hperm : (List.insertionSort entryLe m).Perm m := List.perm_insertionSort entryLe m
  refine ⟨List.insertionSort entryLe m, ?_, hperm.length_eq, ?_⟩
  · have hw : writeNotificationTimes m = List.insertionSort entryLe (m.map fmtEntry) := rfl
    show readEntries localOffUs (writeNotificationTimes m)
      = .ok (List.insertionSort entryLe m)
    rw [hw, insertionSort_map_fmt]
    exact readEntries_map_fmt localOffUs _ fun e he => hvals e (hperm.mem_iff.mp he)
  · have hnds : keysNodup (List.insertionSort entryLe m) := by
      unfold keysNodup at hkeys ⊢
      exact ((hperm.map Prod.fst).nodup_iff).mpr hkeys
    exact lookupStr_perm _ _ hperm hnds

/-- Claim C10, witness: a concrete two-entry mapping round-trips. -/
theorem spec_C10_witness :
    ∃ m', loadNotificationTimes 3600000000
      (some (.ok (writeNotificationTimes
        [("i-b".data, ⟨2026, 10, 12, 8, 28, 56, 256187, some 0⟩),
         ("i-a".data, ⟨2024, 2, 29, 23, 59, 59, 0, some 0⟩)]))) = .ok m'
      ∧ m'.length = 2
      ∧ ∀ k, lookupStr m' k
        = lookupStr [("i-b".data, (⟨2026, 10, 12, 8, 28, 56, 256187, some 0⟩ : PyDateTime)),
            ("i-a".data, ⟨2024, 2, 29, 23, 59, 59, 0, some 0⟩)] k :=
  spec_C10_roundtrip
    [("i-b".data, ⟨2026, 10, 12, 8, 28, 56, 256187, some 0⟩),
     ("i-a".data, ⟨2024, 2, 29, 23, 59, 59, 0, some 0⟩)] 3600000000
    (by decide) (by decide)
